import Mathlib

/-!
xcfs: page transform and file-operation redirection

A shallow embedding of `src/xcfs/mmap.c` and `src/xcfs/file.c`.

* Bytes are `Fin 256`; every byte operation is written with an explicit
  `% 256`.
* A buffer (a mapped page, the staging page) is a `List Byte`.
* C `int` results are obtained from wider values through `to_int`
  (two's-complement truncation to 32 bits); `unsigned` values are taken
  `% 2 ^ 32`.
* Kernel services the module calls (`vfs_read`, `vfs_write`, the lower
  `writepage`, `generic_file_llseek`, `alloc_page`, `find_or_create_page`)
  are parameters of the embedded functions.
* Every embedded function returns, besides its C return value and the
  objects it updated, the list of kernel calls it made (`Event` for the page
  operations, `FileEvent` for the file operations), in order.
-/

namespace Xcfs

/-! ## Machine integers and buffers -/

/-- One `unsigned char`. -/
abbrev Byte := Fin 256

/-- Kernel constant `PAGE_SHIFT` (x86). -/
def PAGE_SHIFT : Nat := 12

/-- Kernel constant `PAGE_SIZE`, that is `1UL << PAGE_SHIFT`. -/
def PAGE_SIZE : Nat := 1 <<< PAGE_SHIFT

/-- Kernel constant `FMODE_READ`. -/
def FMODE_READ : Nat := 1

/-- Kernel constant `FMODE_WRITE`. -/
def FMODE_WRITE : Nat := 2

/-- Kernel constant `AOP_WRITEPAGE_ACTIVATE`. -/
def AOP_WRITEPAGE_ACTIVATE : Int := 0x80000

/-- Conversion of a wider signed value to C `int` (32 bits, two's complement). -/
def to_int (x : Int) : Int := (x + 2 ^ 31) % 2 ^ 32 - 2 ^ 31

/-- Conversion to C `unsigned` (32 bits). -/
def to_unsigned (x : Nat) : Nat := x % 2 ^ 32

/-- The statement `data[index]++` on an `unsigned char`. -/
def byte_inc (b : Byte) : Byte := ⟨(b.val + 1) % 256, Nat.mod_lt _ (by decide)⟩

/-- The statement `data[index]--` on an `unsigned char`. -/
def byte_dec (b : Byte) : Byte := ⟨(b.val + 255) % 256, Nat.mod_lt _ (by decide)⟩

/-- The loop of `xcfs_encrypt`, entered with `index`; `fuel` bounds the
number of iterations left. A store outside the buffer is not modelled (the
buffer is left as it is). -/
def xcfs_encrypt_loop (count : Int) : Nat → Nat → List Byte → List Byte
  | 0, _, data => data
  | fuel + 1, index, data =>
    if (index : Int) < count then
      xcfs_encrypt_loop count fuel (index + 1) (data.modify byte_inc index)
    else data

/-- `xcfs_encrypt(data, count)` (mmap.c:14): `data[index]++` for
`index = 0 .. count - 1`. The loop runs `count` times, so `count` is enough
fuel. -/
def xcfs_encrypt (data : List Byte) (count : Int) : List Byte :=
  xcfs_encrypt_loop count count.toNat 0 data

/-- The loop of `xcfs_decrypt`, entered with `index`. -/
def xcfs_decrypt_loop (count : Int) : Nat → Nat → List Byte → List Byte
  | 0, _, data => data
  | fuel + 1, index, data =>
    if (index : Int) < count then
      xcfs_decrypt_loop count fuel (index + 1) (data.modify byte_dec index)
    else data

/-- `xcfs_decrypt(data, count)` (mmap.c:21): `data[index]--` for
`index = 0 .. count - 1`. -/
def xcfs_decrypt (data : List Byte) (count : Int) : List Byte :=
  xcfs_decrypt_loop count count.toNat 0 data

/-- `memcpy(dst, src, n)` on buffers: the first `n` bytes of `dst` become
the first `n` bytes of `src`. -/
def memcpy (dst src : List Byte) (n : Nat) : List Byte :=
  src.take n ++ dst.drop n

/-- `memset(s + off, c, n)`: `n` bytes from offset `off` become `c`. -/
def memset (s : List Byte) (off : Nat) (c : Byte) (n : Nat) : List Byte :=
  s.take off ++ List.replicate n c ++ s.drop (off + n)

/-! ## Kernel objects -/

/-- A page of the page cache: `page->index`, the mapped contents, and the
flags the module tests or changes. -/
structure Page where
  index : Nat
  data : List Byte
  uptodate : Bool
  dirty : Bool
  locked : Bool
  deriving DecidableEq, Repr

/-- A `struct file` of the lower filesystem: `f_pos`, `f_mode`, and the
bytes of the inode behind it. -/
structure File where
  f_pos : Int
  f_mode : Nat
  i_data : List Byte
  deriving DecidableEq, Repr

/-- What a `struct page *` returned by an allocator can be: `NULL`, an
`ERR_PTR(e)` value, or a page with some contents. -/
inductive PagePtr where
  | null
  | error (e : Int)
  | page (data : List Byte)
  deriving DecidableEq, Repr

/-- Kernel macro `IS_ERR`: true for the `ERR_PTR` values only; `NULL` is not
an error pointer. -/
def IS_ERR : PagePtr → Bool
  | .error _ => true
  | _ => false

/-- Kernel macro `PTR_ERR`. -/
def PTR_ERR : PagePtr → Int
  | .error e => e
  | _ => 0

/-- Whether `kmap` of the pointer gives memory the caller may access. -/
def PagePtr.valid : PagePtr → Bool
  | .page _ => true
  | _ => false

/-- The mapped contents behind a valid page pointer. -/
def PagePtr.contents : PagePtr → List Byte
  | .page data => data
  | _ => []

/-- Kernel helper `page_offset`: `((loff_t)page->index) << PAGE_SHIFT`. -/
def page_offset (page : Page) : Int := ((page.index <<< PAGE_SHIFT : Nat) : Int)

/-- What `vfs_read` hands back: its return value, the bytes it stored at the
start of the caller's buffer, and the file afterwards. -/
structure ReadResult where
  ret : Int
  buf : List Byte
  file : File
  deriving DecidableEq, Repr

/-- What `vfs_write` hands back: its return value and the file afterwards. -/
structure WriteResult where
  ret : Int
  file : File
  deriving DecidableEq, Repr

/-- Kernel calls made by the page operations, in program order. -/
inductive Event where
  | kmap_cipher_page
  | kmap_page
  | kunmap_page
  | kunmap_cipher_page
  | free_cipher_page
  | inode_lock
  | inode_unlock
  | memcpy_cipher
  | vfs_read (pos : Int) (count : Nat)
  | vfs_write (pos : Int) (buf : List Byte) (count : Nat)
  | fsstack_copy_attr_atime
  | fsstack_copy_inode_size
  | fsstack_copy_attr_times
  | mark_inode_dirty_sync
  | flush_dcache_page
  | SetPageUptodate
  | ClearPageUptodate
  | set_page_dirty
  | unlock_page
  | put_page
  | find_or_create_page (index : Nat) (mask : Nat)
  | kmap_lower_page
  | kunmap_lower_page
  | flush_dcache_lower_page
  | SetPageUptodate_lower
  | set_page_dirty_lower
  | wait_on_page_writeback_lower
  | clear_page_dirty_for_io_lower
  | lower_writepage (lower_page : Page)
  | unlock_lower_page
  | put_lower_page
  deriving DecidableEq, Repr

/-! ## mmap.c: xcfs_readpage -/

/-- Outcome of `xcfs_readpage`. `ret = none` means the call did not return:
it reached an access through a staging pointer that is not a page. -/
structure ReadpageResult where
  ret : Option Int
  page : Page
  lower_file : File
  trace : List Event

/-- The code of `xcfs_readpage` from label `out` (mmap.c:112-125). -/
def xcfs_readpage_out (cipher_page : PagePtr) (err : Int) (page : Page)
    (lower_file : File) (trace : List Event) : ReadpageResult :=
  let trace := trace ++ [Event.kunmap_cipher_page, Event.free_cipher_page]
  if !cipher_page.valid then
    ⟨none, page, lower_file, trace⟩
  else if err = 0 then
    ⟨some err, { page with uptodate := true, locked := false }, lower_file,
      trace ++ [Event.SetPageUptodate, Event.unlock_page]⟩
  else
    ⟨some err, { page with uptodate := false, locked := false }, lower_file,
      trace ++ [Event.ClearPageUptodate, Event.unlock_page]⟩

/-- The page contents `xcfs_readpage` leaves (mmap.c:90-101), from the
contents before, the staging buffer after the read, and `err`: on a read
that did not fail the staging page is copied and decrypted, and after label
`out_err` the bytes from `err` on are cleared when `0 <= err < PAGE_SIZE`. -/
def xcfs_readpage_data (page_data cipher : List Byte) (err : Int) : List Byte :=
  let page_data :=
    if err < 0 then page_data
    else xcfs_decrypt (memcpy page_data cipher PAGE_SIZE) PAGE_SIZE
  if 0 ≤ err ∧ err < PAGE_SIZE then
    memset page_data err.toNat 0 (PAGE_SIZE - err.toNat)
  else page_data

/-- `xcfs_readpage(file, page)` (mmap.c:38). `cipher_page` is what
`alloc_page` returned, `lower_file` is `xcfs_lower_file(file)` (the two
`BUG_ON` assertions are taken to hold), `vfs_read lower_file count` is the
lower read into the staging buffer at `lower_file.f_pos`. -/
def xcfs_readpage (vfs_read : File → Nat → ReadResult) (cipher_page : PagePtr)
    (lower_file : File) (page : Page) : ReadpageResult :=
  if IS_ERR cipher_page then
    xcfs_readpage_out cipher_page (to_int (PTR_ERR cipher_page)) page lower_file []
  else
    let orig_mode := lower_file.f_mode
    let lower_file : File :=
      ⟨page_offset page, lower_file.f_mode ||| FMODE_READ, lower_file.i_data⟩
    let trace := [Event.kmap_cipher_page, Event.kmap_page, Event.inode_lock,
      Event.vfs_read lower_file.f_pos PAGE_SIZE]
    if !cipher_page.valid then
      ⟨none, page, lower_file, trace⟩
    else
      let r := vfs_read lower_file PAGE_SIZE
      let cipher := memcpy cipher_page.contents r.buf r.buf.length
      let err := to_int r.ret
      let lower_file : File := ⟨r.file.f_pos, orig_mode, r.file.i_data⟩
      let page : Page :=
        ⟨page.index, xcfs_readpage_data page.data cipher err, page.uptodate, page.dirty,
          page.locked⟩
      let trace := trace ++ [Event.inode_unlock]
      if err < 0 then
        xcfs_readpage_out cipher_page err page lower_file trace
      else
        xcfs_readpage_out cipher_page 0 page lower_file
          (trace ++ [Event.fsstack_copy_attr_atime, Event.kunmap_page, Event.flush_dcache_page])

/-! ## mmap.c: xcfs_writepage -/

/-- Kernel constant `__GFP_FS`. -/
def __GFP_FS : Nat := 0x80

/-- Outcome of `xcfs_writepage`. -/
structure WritepageResult where
  ret : Int
  page : Page
  lower_page : Option Page
  trace : List Event

/-- Kernel helper `copy_highpage(to, from)`: one page of bytes is copied. -/
def copy_highpage (to_ from_ : Page) : Page :=
  { to_ with data := memcpy to_.data from_.data PAGE_SIZE }

/-- The lower page as `xcfs_writepage` prepares it (mmap.c:171-193): the
upper page is copied into it, the copy is encrypted, `copy_highpage` copies
the upper page into it, and it is marked up to date, dirty, then clean for
I/O. -/
def xcfs_writepage_copy (page lower_page : Page) : Page :=
  let plain := page.data
  let lower_page := { lower_page with data := memcpy lower_page.data plain PAGE_SIZE }
  let lower_page := { lower_page with data := xcfs_encrypt lower_page.data PAGE_SIZE }
  let lower_page := copy_highpage lower_page page
  let lower_page := { lower_page with uptodate := true }
  let lower_page := { lower_page with dirty := true }
  { lower_page with dirty := false }

/-- The code of `xcfs_writepage` from label `out_release` (mmap.c:202-210). -/
def xcfs_writepage_release (err : Int) (page lower_page : Page) (trace : List Event) :
    WritepageResult :=
  ⟨err, { page with locked := false }, some lower_page,
    trace ++ [Event.kunmap_page, Event.kunmap_lower_page, Event.put_lower_page,
      Event.unlock_page]⟩

/-- `xcfs_writepage(page, wbc)` (mmap.c:133). `has_inode` is
`page->mapping->host != NULL`, `mapping_gfp_mask` the lower mapping's mask,
`find_or_create_page index mask` the lookup in the lower mapping,
`lower_writepage` the lower `a_ops->writepage`. The `BUG_ON` assertions are
taken to hold. -/
def xcfs_writepage (lower_writepage : Page → Int) (has_inode : Bool)
    (mapping_gfp_mask : Nat) (find_or_create_page : Nat → Nat → Option Page)
    (page : Page) : WritepageResult :=
  if !has_inode then
    ⟨0, { page with locked := false }, none, [Event.unlock_page]⟩
  else
    let mask := mapping_gfp_mask &&& (2 ^ 32 - 1 - __GFP_FS)
    let trace := [Event.find_or_create_page page.index mask]
    match find_or_create_page page.index mask with
    | none =>
      let page := { page with dirty := true }
      ⟨0, { page with locked := false }, none,
        trace ++ [Event.set_page_dirty, Event.unlock_page]⟩
    | some lower_page =>
      let lower_page := xcfs_writepage_copy page lower_page
      let trace := trace ++ [Event.kmap_page, Event.kmap_lower_page,
        Event.flush_dcache_lower_page, Event.SetPageUptodate_lower,
        Event.set_page_dirty_lower, Event.wait_on_page_writeback_lower,
        Event.clear_page_dirty_for_io_lower, Event.lower_writepage lower_page]
      let err := lower_writepage lower_page
      if err < 0 then
        xcfs_writepage_release err page lower_page trace
      else if err = AOP_WRITEPAGE_ACTIVATE then
        xcfs_writepage_release 0 page { lower_page with locked := false }
          (trace ++ [Event.unlock_lower_page])
      else
        xcfs_writepage_release err page lower_page trace

/-! ## mmap.c: xcfs_write_begin, xcfs_write_end -/

/-- `xcfs_write_begin` (mmap.c:214): the page grabbed is the one with index
`pos >> PAGE_SHIFT`; no page gives `-ENOMEM`. -/
def xcfs_write_begin (grab_cache_page_write_begin : Nat → Option Page) (pos : Nat) :
    Int × Option Page :=
  let index := pos >>> PAGE_SHIFT
  match grab_cache_page_write_begin index with
  | none => (-12, none)
  | some page => (0, some page)

/-- Outcome of `xcfs_write_end`. `ret = none` means the call did not return:
it reached an access through a staging pointer that is not a page. -/
structure WriteEndResult where
  ret : Option Int
  page : Page
  lower_file : Option File
  trace : List Event

/-- The code of `xcfs_write_end` from label `out` (mmap.c:302-311). -/
def xcfs_write_end_out (cipher_page : PagePtr) (err : Int) (page : Page)
    (lower_file : Option File) (trace : List Event) : WriteEndResult :=
  let trace := trace ++ [Event.kunmap_cipher_page, Event.free_cipher_page]
  if !cipher_page.valid then
    ⟨none, page, lower_file, trace⟩
  else if err < 0 then
    ⟨some err, { page with uptodate := false, locked := false }, lower_file,
      trace ++ [Event.ClearPageUptodate, Event.unlock_page, Event.put_page]⟩
  else
    ⟨some err, { page with locked := false }, lower_file,
      trace ++ [Event.unlock_page, Event.put_page]⟩

/-- `xcfs_write_end(file, mapping, pos, len, copied, page, fsdata)`
(mmap.c:235). `file` is `none` when `!file || !XCFS_F(file)`, otherwise the
bound lower file; `alloc_page` is what `alloc_page(GFP_KERNEL)` returns;
`vfs_write lower_file buf count` is the lower write of `count` bytes from
`buf` at `lower_file.f_pos`. The `BUG_ON` assertions are taken to hold. -/
def xcfs_write_end (vfs_write : File → List Byte → Nat → WriteResult)
    (alloc_page : PagePtr) (file : Option File) (pos : Nat) (copied : Nat)
    (page : Page) : WriteEndResult :=
  let from_ := to_unsigned (pos &&& (PAGE_SIZE - 1))
  let to_ := to_unsigned (from_ + copied)
  let bytes := to_unsigned (to_ + 2 ^ 32 - from_)
  match file with
  | none => xcfs_write_end_out PagePtr.null 0 page none []
  | some lower_file =>
    let cipher_page := alloc_page
    let trace := [Event.kmap_page, Event.kmap_cipher_page, Event.memcpy_cipher]
    if !cipher_page.valid then
      ⟨none, page, some lower_file, trace⟩
    else
      let cipher := memcpy cipher_page.contents page.data PAGE_SIZE
      let cipher := xcfs_encrypt cipher PAGE_SIZE
      let lower_file : File :=
        ⟨page_offset page + from_, lower_file.f_mode ||| FMODE_WRITE, lower_file.i_data⟩
      let buf := cipher.drop from_
      let trace := trace ++ [Event.vfs_write lower_file.f_pos (buf.take bytes) bytes]
      let r := vfs_write lower_file buf bytes
      let err := to_int r.ret
      let trace := trace ++ [Event.kunmap_page]
      if err < 0 then
        xcfs_write_end_out cipher_page err page (some r.file) trace
      else
        xcfs_write_end_out cipher_page err page (some r.file)
          (trace ++ [Event.fsstack_copy_inode_size, Event.fsstack_copy_attr_times,
            Event.mark_inode_dirty_sync])

/-! ## The lower file as a byte array -/

/-- Kernel constant `EBADF`. -/
def EBADF : Int := 9

/-- Positional read on a byte-array file: `vfs_read` refuses a file not
opened for reading; otherwise it returns the bytes from `f_pos` up to
`count` or the end of the file and advances `f_pos`. -/
def array_vfs_read (f : File) (count : Nat) : ReadResult :=
  if f.f_mode &&& FMODE_READ = 0 then ⟨-EBADF, [], f⟩
  else
    let got := (f.i_data.drop f.f_pos.toNat).take count
    ⟨got.length, got, { f with f_pos := f.f_pos + got.length }⟩

/-- Positional write on a byte-array file: `vfs_write` refuses a file not
opened for writing; otherwise `count` bytes of `buf` replace the bytes from
`f_pos` on (a gap before `f_pos` reads as zero), and `f_pos` advances. -/
def array_vfs_write (f : File) (buf : List Byte) (count : Nat) : WriteResult :=
  if f.f_mode &&& FMODE_WRITE = 0 then ⟨-EBADF, f⟩
  else
    let src := buf.take count
    let pos := f.f_pos.toNat
    let head := f.i_data.take pos ++ List.replicate (pos - f.i_data.length) 0
    ⟨src.length,
      { f with i_data := head ++ src ++ f.i_data.drop (pos + src.length),
               f_pos := f.f_pos + src.length }⟩

/-- Buffered write of `remaining` bytes from offset `index * PAGE_SIZE`, one
`xcfs_write_end` per page: page `index` holds the next bytes, `copied` is a
whole page or what remains, and the lower file is the one the previous call
left. `stage index` is the content of the staging page that call allocates. -/
def commit_pages (stage : Nat → List Byte) :
    Nat → Nat → List (List Byte) → Option File → Option File
  | _, _, [], lower_file => lower_file
  | index, remaining, p :: ps, lower_file =>
    let copied := min PAGE_SIZE remaining
    let r := xcfs_write_end array_vfs_write (PagePtr.page (stage index)) lower_file
      (index * PAGE_SIZE) copied ⟨index, p, true, false, true⟩
    commit_pages stage (index + 1) (remaining - copied) ps r.lower_file

/-- Reading `n` pages from page `index` on, one `xcfs_readpage` per page
into a locked page that is not up to date and holds `fresh index`; the
contents of the pages read, in order. -/
def read_pages (stage fresh : Nat → List Byte) : Nat → Nat → File → List (List Byte)
  | 0, _, _ => []
  | n + 1, index, lower_file =>
    let r := xcfs_readpage array_vfs_read (PagePtr.page (stage index)) lower_file
      ⟨index, fresh index, false, false, true⟩
    r.page.data :: read_pages stage fresh n (index + 1) r.lower_file

/-! ## file.c: xcfs_file_llseek -/

/-- Kernel constant `EINVAL`. -/
def EINVAL : Int := 22

/-- Kernel constant `ENXIO`. -/
def ENXIO : Int := 6

/-- Kernel constant `SEEK_SET`. -/
def SEEK_SET : Int := 0

/-- Kernel constant `SEEK_CUR`. -/
def SEEK_CUR : Int := 1

/-- Kernel constant `SEEK_END`. -/
def SEEK_END : Int := 2

/-- Kernel constant `SEEK_DATA`. -/
def SEEK_DATA : Int := 3

/-- Kernel constant `SEEK_HOLE`. -/
def SEEK_HOLE : Int := 4

/-- Kernel helper `vfs_setpos` (fs/read_write.c) for a file without
unsigned offsets: the offset is refused when negative or above `maxsize`,
else it becomes `f_pos` and is returned. -/
def vfs_setpos (file : File) (offset maxsize : Int) : Int × File :=
  if offset < 0 then (-EINVAL, file)
  else if offset > maxsize then (-EINVAL, file)
  else (offset, { file with f_pos := offset })

/-- Kernel function `generic_file_llseek` (fs/read_write.c) on a byte-array
file whose size is the length of `i_data`; `maxsize` is the superblock's
`s_maxbytes`. It returns the `loff_t` result and the file afterwards. -/
def generic_file_llseek (maxsize : Int) (file : File) (offset : Int) (whence : Int) :
    Int × File :=
  let eof : Int := file.i_data.length
  if whence = SEEK_END then vfs_setpos file (offset + eof) maxsize
  else if whence = SEEK_CUR then
    if offset = 0 then (file.f_pos, file)
    else vfs_setpos file (file.f_pos + offset) maxsize
  else if whence = SEEK_DATA then
    if offset ≥ eof then (- ENXIO, file) else vfs_setpos file offset maxsize
  else if whence = SEEK_HOLE then
    if offset ≥ eof then (- ENXIO, file) else vfs_setpos file eof maxsize
  else vfs_setpos file offset maxsize

/-- Outcome of `xcfs_file_llseek`: the `loff_t` returned and both files. -/
structure LlseekResult where
  ret : Int
  file : File
  lower_file : File
  deriving DecidableEq, Repr

/-- `xcfs_file_llseek(file, offset, whence)` (file.c:221). `llseek` is the
kernel's `generic_file_llseek`; its `loff_t` result is stored in the local
`int err`, and `err` is what the function returns. -/
def xcfs_file_llseek (llseek : File → Int → Int → Int × File) (file lower_file : File)
    (offset : Int) (whence : Int) : LlseekResult :=
  let r := llseek file offset whence
  let err := to_int r.1
  let file := r.2
  if err < 0 then ⟨err, file, lower_file⟩
  else
    let r := llseek lower_file offset whence
    let err := to_int r.1
    ⟨err, file, r.2⟩

/-- The lower page handed to the lower `writepage`, for an event that is
such a call. -/
def Event.lower_writepage_arg : Event → Option Page
  | .lower_writepage lower_page => some lower_page
  | _ => none

/-- The `(offset, data, count)` of a lower write, for an event that is one. -/
def Event.vfs_write_arg : Event → Option (Int × List Byte × Nat)
  | .vfs_write pos buf count => some (pos, buf, count)
  | _ => none

/-- The `(offset, count)` of a lower read, for an event that is one. -/
def Event.vfs_read_arg : Event → Option (Int × Nat)
  | .vfs_read pos count => some (pos, count)
  | _ => none

/-! ## file.c: attributes, ioctl, open, release, read_iter, write_iter -/

/-- Kernel constant `ENOTTY`. -/
def ENOTTY : Int := 25

/-- Kernel constant `ENOENT`. -/
def ENOENT : Int := 2

/-- Kernel constant `ENOMEM`. -/
def ENOMEM : Int := 12

/-- Kernel constant `MAX_ERRNO`. -/
def MAX_ERRNO : Int := 4095

/-- The fields of a `struct inode` the stacking helpers copy. -/
structure Inode where
  i_mode : Nat
  i_uid : Nat
  i_gid : Nat
  i_rdev : Nat
  i_atime : Int
  i_mtime : Int
  i_ctime : Int
  i_blkbits : Nat
  i_flags : Nat
  i_nlink : Nat
  i_size : Int
  i_blocks : Nat
  deriving DecidableEq, Repr

/-- Kernel helper `fsstack_copy_attr_atime(dest, src)` (linux/fs_stack.h). -/
def fsstack_copy_attr_atime (dest src : Inode) : Inode :=
  { dest with i_atime := src.i_atime }

/-- Kernel helper `fsstack_copy_attr_times(dest, src)` (linux/fs_stack.h). -/
def fsstack_copy_attr_times (dest src : Inode) : Inode :=
  { dest with i_atime := src.i_atime, i_mtime := src.i_mtime, i_ctime := src.i_ctime }

/-- Kernel helper `fsstack_copy_inode_size(dst, src)` (fs/stack.c). -/
def fsstack_copy_inode_size (dst src : Inode) : Inode :=
  { dst with i_size := src.i_size, i_blocks := src.i_blocks }

/-- Kernel helper `fsstack_copy_attr_all(dest, src)` (fs/stack.c). -/
def fsstack_copy_attr_all (dest src : Inode) : Inode :=
  { dest with
    i_mode := src.i_mode, i_uid := src.i_uid, i_gid := src.i_gid, i_rdev := src.i_rdev,
    i_atime := src.i_atime, i_mtime := src.i_mtime, i_ctime := src.i_ctime,
    i_blkbits := src.i_blkbits, i_flags := src.i_flags, i_nlink := src.i_nlink }

/-- The entries of a lower `struct file_operations` the module calls. Each
takes the lower inode and gives the entry's result and the lower inode
afterwards; `unlocked_ioctl` also takes `cmd` and `arg`. -/
structure file_operations where
  unlocked_ioctl : Option (Nat → Nat → Inode → Int × Inode)
  read_iter : Option (Inode → Int × Inode)
  write_iter : Option (Inode → Int × Inode)

/-- A lower `struct file`: its identity, its `f_op` table (which may be
`NULL`) and the inode behind it. -/
structure LowerFile where
  id : Nat
  f_op : Option file_operations
  f_inode : Inode

/-- The per-file private data `struct xcfs_file_info`. -/
structure xcfs_file_info where
  lower_file : Option LowerFile

/-- What `dentry_open` returns: an `ERR_PTR(e)` value or a lower file. -/
inductive FilePtr where
  | error (e : Int)
  | file (f : LowerFile)

/-- Kernel calls made by the file operations, in program order; a file is
named by its `id`. -/
inductive FileEvent where
  | kzalloc
  | kfree
  | dentry_open_file (id : Nat)
  | dentry_open_error (e : Int)
  | path_put
  | get_file (id : Nat)
  | fput (id : Nat)
  | lower_unlocked_ioctl (cmd arg : Nat)
  | lower_read_iter
  | lower_write_iter
  | fsstack_copy_attr_all
  | fsstack_copy_attr_atime
  | fsstack_copy_inode_size
  | fsstack_copy_attr_times
  deriving DecidableEq, Repr

/-- Whether the event takes a reference on a lower file at open. -/
def FileEvent.acquires : FileEvent → Bool
  | .dentry_open_file _ => true
  | _ => false

/-- Whether the event drops a reference on a lower file. -/
def FileEvent.releases : FileEvent → Bool
  | .fput _ => true
  | _ => false

/-- Outcome of `xcfs_unlocked_ioctl`: the `long` returned, the upper inode
and the lower inode afterwards. -/
structure IoctlResult where
  ret : Int
  inode : Inode
  lower_inode : Option Inode
  trace : List FileEvent

/-- `xcfs_unlocked_ioctl(file, cmd, arg)` (file.c:64). `lower_file` is
`xcfs_lower_file(file)`, `inode` is `file_inode(file)`. -/
def xcfs_unlocked_ioctl (lower_file : Option LowerFile) (cmd arg : Nat) (inode : Inode) :
    IoctlResult :=
  let err : Int := - ENOTTY
  match lower_file with
  | none => ⟨err, inode, none, []⟩
  | some lf =>
    match lf.f_op with
    | none => ⟨err, inode, some lf.f_inode, []⟩
    | some f_op =>
      let step : Int × Inode × List FileEvent :=
        match f_op.unlocked_ioctl with
        | some entry =>
          ((entry cmd arg lf.f_inode).1, (entry cmd arg lf.f_inode).2,
            [FileEvent.lower_unlocked_ioctl cmd arg])
        | none => (err, lf.f_inode, [])
      if step.1 = 0 then
        ⟨step.1, fsstack_copy_attr_all inode step.2.1, some step.2.1,
          step.2.2 ++ [FileEvent.fsstack_copy_attr_all]⟩
      else
        ⟨step.1, inode, some step.2.1, step.2.2⟩

/-- Outcome of `xcfs_open`: the `int` returned, `file->private_data`
(`none` for `NULL`), whether the object it points to has been freed, and
the upper inode. -/
structure OpenResult where
  ret : Int
  private_data : Option xcfs_file_info
  freed : Bool
  inode : Inode
  trace : List FileEvent

/-- `xcfs_open(inode, file)` (file.c:116). `d_unhashed` is the test on the
upper dentry, `kzalloc` whether the allocation of the private data gives
memory (zeroed), `dentry_open` what opening the lower path returns,
`lower_inode` is `xcfs_lower_inode(inode)`. -/
def xcfs_open (d_unhashed : Bool) (kzalloc : Bool) (dentry_open : FilePtr)
    (inode lower_inode : Inode) : OpenResult :=
  if d_unhashed then
    ⟨- ENOENT, none, false, inode, []⟩
  else if !kzalloc then
    ⟨- ENOMEM, none, false, inode, [FileEvent.kzalloc]⟩
  else
    let info : xcfs_file_info := ⟨none⟩
    match dentry_open with
    | .error e =>
      let err := to_int e
      let trace := [FileEvent.kzalloc, FileEvent.dentry_open_error e, FileEvent.path_put]
      let step : xcfs_file_info × List FileEvent :=
        match info.lower_file with
        | some lf => (⟨none⟩, trace ++ [FileEvent.fput lf.id])
        | none => (info, trace)
      if err ≠ 0 then
        ⟨err, some step.1, true, inode, step.2 ++ [FileEvent.kfree]⟩
      else
        ⟨err, some step.1, false, fsstack_copy_attr_all inode lower_inode,
          step.2 ++ [FileEvent.fsstack_copy_attr_all]⟩
    | .file lf =>
      let info : xcfs_file_info := ⟨some lf⟩
      ⟨0, some info, false, fsstack_copy_attr_all inode lower_inode,
        [FileEvent.kzalloc, FileEvent.dentry_open_file lf.id, FileEvent.path_put,
          FileEvent.fsstack_copy_attr_all]⟩

/-- Outcome of `xcfs_file_release`: the `int` returned, the private data
as it is when freed, and whether it has been freed. -/
structure ReleaseResult where
  ret : Int
  info : xcfs_file_info
  freed : Bool
  trace : List FileEvent

/-- `xcfs_file_release(inode, file)` (file.c:171), for a file whose
`private_data` points to `info`. -/
def xcfs_file_release (info : xcfs_file_info) : ReleaseResult :=
  match info.lower_file with
  | some lf => ⟨0, ⟨none⟩, true, [FileEvent.fput lf.id, FileEvent.kfree]⟩
  | none => ⟨0, info, true, [FileEvent.kfree]⟩

/-- One open of a lower file through `xcfs_open` followed by one
`xcfs_file_release`, for each lower file of the list in turn: the kernel
calls made. An open that leaves no private data is followed by no release. -/
def open_release_cycles (inode lower_inode : Inode) : List LowerFile → List FileEvent
  | [] => []
  | lf :: rest =>
    let o := xcfs_open false true (FilePtr.file lf) inode lower_inode
    let r : List FileEvent :=
      match o.private_data with
      | some info => (xcfs_file_release info).trace
      | none => []
    o.trace ++ r ++ open_release_cycles inode lower_inode rest

theorem byte_dec_inc (b : Byte) : byte_dec (byte_inc b) = b := by
  apply Fin.ext
  simp only [byte_dec, byte_inc]
  omega

theorem byte_inc_dec (b : Byte) : byte_inc (byte_dec b) = b := by
  apply Fin.ext
  simp only [byte_dec, byte_inc]
  omega

theorem xcfs_encrypt_loop_getElem? (count : Int) (fuel : Nat) :
    ∀ (index : Nat) (data : List Byte) (j : Nat), (index + fuel : Int) = count →
      (xcfs_encrypt_loop count fuel index data)[j]? =
        if index ≤ j ∧ j < index + fuel then data[j]?.map byte_inc else data[j]? := by
  induction fuel with
  | zero =>
    intro index data j _
    have h0 : ¬ (index ≤ j ∧ j < index + 0) := by omega
    rw [if_neg h0]
    rfl
  | succ fuel ih =>
    intro index data j h
    have hlt : (index : Int) < count := by omega
    simp only [xcfs_encrypt_loop, hlt, if_true]
    rw [ih (index + 1) _ j (by push_cast; omega), List.getElem?_modify]
    by_cases h1 : index = j
    · subst h1
      have h2 : ¬ (index + 1 ≤ index ∧ index < index + 1 + fuel) := by omega
      have h3 : (index ≤ index ∧ index < index + (fuel + 1)) := by omega
      simp [h2, h3]
    · by_cases h2 : index + 1 ≤ j ∧ j < index + 1 + fuel
      · have h3 : index ≤ j ∧ j < index + (fuel + 1) := by omega
        simp [h1, h2, h3]
      · have h3 : ¬ (index ≤ j ∧ j < index + (fuel + 1)) := by omega
        simp [h1, h2, h3]

theorem xcfs_decrypt_loop_getElem? (count : Int) (fuel : Nat) :
    ∀ (index : Nat) (data : List Byte) (j : Nat), (index + fuel : Int) = count →
      (xcfs_decrypt_loop count fuel index data)[j]? =
        if index ≤ j ∧ j < index + fuel then data[j]?.map byte_dec else data[j]? := by
  induction fuel with
  | zero =>
    intro index data j _
    have h0 : ¬ (index ≤ j ∧ j < index + 0) := by omega
    rw [if_neg h0]
    rfl
  | succ fuel ih =>
    intro index data j h
    have hlt : (index : Int) < count := by omega
    simp only [xcfs_decrypt_loop, hlt, if_true]
    rw [ih (index + 1) _ j (by push_cast; omega), List.getElem?_modify]
    by_cases h1 : index = j
    · subst h1
      have h2 : ¬ (index + 1 ≤ index ∧ index < index + 1 + fuel) := by omega
      have h3 : (index ≤ index ∧ index < index + (fuel + 1)) := by omega
      simp [h2, h3]
    · by_cases h2 : index + 1 ≤ j ∧ j < index + 1 + fuel
      · have h3 : index ≤ j ∧ j < index + (fuel + 1) := by omega
        simp [h1, h2, h3]
      · have h3 : ¬ (index ≤ j ∧ j < index + (fuel + 1)) := by omega
        simp [h1, h2, h3]

/-- Byte `j` of the encrypted buffer. -/
theorem xcfs_encrypt_getElem? (data : List Byte) (count : Int) (j : Nat) :
    (xcfs_encrypt data count)[j]? =
      if j < count.toNat then data[j]?.map byte_inc else data[j]? := by
  unfold xcfs_encrypt
  rcases Int.lt_or_le count 0 with hneg | hpos
  · have h0 : count.toNat = 0 := by omega
    rw [h0]
    simp [xcfs_encrypt_loop]
  · rw [xcfs_encrypt_loop_getElem? count count.toNat 0 data j (by omega)]
    simp

/-- Byte `j` of the decrypted buffer. -/
theorem xcfs_decrypt_getElem? (data : List Byte) (count : Int) (j : Nat) :
    (xcfs_decrypt data count)[j]? =
      if j < count.toNat then data[j]?.map byte_dec else data[j]? := by
  unfold xcfs_decrypt
  rcases Int.lt_or_le count 0 with hneg | hpos
  · have h0 : count.toNat = 0 := by omega
    rw [h0]
    simp [xcfs_decrypt_loop]
  · rw [xcfs_decrypt_loop_getElem? count count.toNat 0 data j (by omega)]
    simp

/-- The encrypting loop as a map over the first `count` bytes. -/
theorem xcfs_encrypt_eq (data : List Byte) (count : Int) :
    xcfs_encrypt data count =
      (data.take count.toNat).map byte_inc ++ data.drop count.toNat := by
  apply List.ext_getElem?
  intro j
  rw [xcfs_encrypt_getElem?, List.getElem?_append]
  simp only [List.length_map, List.length_take, List.getElem?_map, List.getElem?_take,
    List.getElem?_drop]
  by_cases h1 : j < count.toNat
  · by_cases h2 : j < data.length
    · have h3 : j < min count.toNat data.length := by omega
      simp [h1, h3]
    · have h3 : ¬ j < min count.toNat data.length := by omega
      have h4 : data[j]? = none := List.getElem?_eq_none (by omega)
      have h5 : data[count.toNat + (j - min count.toNat data.length)]? = none :=
        List.getElem?_eq_none (by omega)
      simp [h1, h3, h4, h5]
  · have h3 : ¬ j < min count.toNat data.length := by omega
    rw [if_neg h1, if_neg h3]
    by_cases h2 : count.toNat ≤ data.length
    · congr 1
      omega
    · rw [List.getElem?_eq_none (by omega), List.getElem?_eq_none (by omega)]

/-- The decrypting loop as a map over the first `count` bytes. -/
theorem xcfs_decrypt_eq (data : List Byte) (count : Int) :
    xcfs_decrypt data count =
      (data.take count.toNat).map byte_dec ++ data.drop count.toNat := by
  apply List.ext_getElem?
  intro j
  rw [xcfs_decrypt_getElem?, List.getElem?_append]
  simp only [List.length_map, List.length_take, List.getElem?_map, List.getElem?_take,
    List.getElem?_drop]
  by_cases h1 : j < count.toNat
  · by_cases h2 : j < data.length
    · have h3 : j < min count.toNat data.length := by omega
      simp [h1, h3]
    · have h3 : ¬ j < min count.toNat data.length := by omega
      have h4 : data[j]? = none := List.getElem?_eq_none (by omega)
      have h5 : data[count.toNat + (j - min count.toNat data.length)]? = none :=
        List.getElem?_eq_none (by omega)
      simp [h1, h3, h4, h5]
  · have h3 : ¬ j < min count.toNat data.length := by omega
    rw [if_neg h1, if_neg h3]
    by_cases h2 : count.toNat ≤ data.length
    · congr 1
      omega
    · rw [List.getElem?_eq_none (by omega), List.getElem?_eq_none (by omega)]

theorem xcfs_decrypt_encrypt (b : List Byte) (n : Int) :
    xcfs_decrypt (xcfs_encrypt b n) n = b := by
  apply List.ext_getElem?
  intro j
  rw [xcfs_decrypt_getElem?, xcfs_encrypt_getElem?]
  by_cases h : j < n.toNat
  · simp only [h, if_true, Option.map_map]
    cases b[j]? with
    | none => rfl
    | some x => simp [byte_dec_inc]
  · simp [h]

theorem xcfs_encrypt_decrypt (b : List Byte) (n : Int) :
    xcfs_encrypt (xcfs_decrypt b n) n = b := by
  apply List.ext_getElem?
  intro j
  rw [xcfs_encrypt_getElem?, xcfs_decrypt_getElem?]
  by_cases h : j < n.toNat
  · simp only [h, if_true, Option.map_map]
    cases b[j]? with
    | none => rfl
    | some x => simp [byte_inc_dec]
  · simp [h]

/-- C1: for every buffer `b` and count `n` with `0 ≤ n ≤ length b`,
decrypting the encrypted buffer and encrypting the decrypted buffer both give
`b` back; the arithmetic is modulo 256: byte `0xFF` encrypts to `0x00` and
byte `0x00` decrypts to `0xFF`. -/
theorem C1_encrypt_decrypt_roundtrip (b : List Byte) (n : Int)
    (h0 : 0 ≤ n) (_hn : n ≤ b.length) :
    xcfs_decrypt (xcfs_encrypt b n) n = b ∧
    xcfs_encrypt (xcfs_decrypt b n) n = b ∧
    (∀ i : Nat, (i : Int) < n → ∀ x : Byte, b[i]? = some x →
      (xcfs_encrypt b n)[i]? = some ⟨(x.val + 1) % 256, Nat.mod_lt _ (by decide)⟩ ∧
      (xcfs_decrypt b n)[i]? = some ⟨(x.val + 255) % 256, Nat.mod_lt _ (by decide)⟩) ∧
    xcfs_encrypt [0xFF] 1 = [0x00] ∧
    xcfs_decrypt [0x00] 1 = [0xFF] := by
  refine ⟨xcfs_decrypt_encrypt b n, xcfs_encrypt_decrypt b n, ?_, by decide, by decide⟩
  intro i hi x hx
  have hi2 : i < n.toNat := by omega
  rw [xcfs_encrypt_getElem?, xcfs_decrypt_getElem?, if_pos hi2, if_pos hi2, hx]
  exact ⟨rfl, rfl⟩

/-- C1 at a four-byte buffer holding `0x00` and `0xFF`. -/
theorem C1_encrypt_decrypt_roundtrip_witness :
    xcfs_decrypt (xcfs_encrypt [0x00, 0xFF, 0x41, 0x7F] 4) 4 = [0x00, 0xFF, 0x41, 0x7F] ∧
    xcfs_encrypt (xcfs_decrypt [0x00, 0xFF, 0x41, 0x7F] 4) 4 = [0x00, 0xFF, 0x41, 0x7F] :=
  let h := C1_encrypt_decrypt_roundtrip [0x00, 0xFF, 0x41, 0x7F] 4 (by decide) (by decide)
  ⟨h.1, h.2.1⟩

/-! ## xcfs_writepage -/

theorem PAGE_SIZE_eq : PAGE_SIZE = 4096 := by decide

theorem memcpy_full (dst src : List Byte) (n : Nat) (hs : src.length = n) (hd : dst.length = n) :
    memcpy dst src n = src := by
  unfold memcpy
  rw [List.take_of_length_le (by omega), List.drop_of_length_le (by omega), List.append_nil]

theorem xcfs_encrypt_length (data : List Byte) (count : Int) :
    (xcfs_encrypt data count).length = data.length := by
  rw [xcfs_encrypt_eq, List.length_append, List.length_map, ← List.length_append,
    List.take_append_drop]

theorem xcfs_decrypt_length (data : List Byte) (count : Int) :
    (xcfs_decrypt data count).length = data.length := by
  rw [xcfs_decrypt_eq, List.length_append, List.length_map, ← List.length_append,
    List.take_append_drop]

/-- The lower page as prepared for the lower `writepage` carries the bytes
of the upper page as they are. -/
theorem xcfs_writepage_copy_data (page lower_page : Page)
    (hpage : page.data.length = PAGE_SIZE) (hlower : lower_page.data.length = PAGE_SIZE) :
    xcfs_writepage_copy page lower_page =
      ⟨lower_page.index, page.data, true, false, lower_page.locked⟩ := by
  have hcopy : memcpy (xcfs_encrypt (memcpy lower_page.data page.data PAGE_SIZE) PAGE_SIZE)
      page.data PAGE_SIZE = page.data := by
    apply memcpy_full _ _ _ hpage
    rw [xcfs_encrypt_length, memcpy_full _ _ _ hpage hlower, hpage]
  simp only [xcfs_writepage_copy, copy_highpage, hcopy]

/-- The single call of the lower `writepage` when a lower page is found. -/
theorem xcfs_writepage_lower_arg (lower_writepage : Page → Int) (mapping_gfp_mask : Nat)
    (find_or_create_page : Nat → Nat → Option Page) (page lower_page : Page)
    (hfind : find_or_create_page page.index (mapping_gfp_mask &&& (2 ^ 32 - 1 - __GFP_FS))
      = some lower_page) :
    (xcfs_writepage lower_writepage true mapping_gfp_mask find_or_create_page page).trace.filterMap
        Event.lower_writepage_arg
      = [xcfs_writepage_copy page lower_page] := by
  simp only [xcfs_writepage, hfind, Bool.not_true, Bool.false_eq_true, if_false,
    xcfs_writepage_release]
  split_ifs <;> simp [Event.lower_writepage_arg]

theorem xcfs_encrypt_replicate (n : Nat) (b : Byte) :
    xcfs_encrypt (List.replicate n b) n = List.replicate n (byte_inc b) := by
  rw [xcfs_encrypt_eq, Int.toNat_ofNat, List.take_replicate, List.drop_replicate,
    List.map_replicate, Nat.min_self, Nat.sub_self, List.replicate_zero, List.append_nil]

/-- C2: at a page of `PAGE_SIZE` zero bytes, with the lower filesystem
handing out a lower page of `0x55` bytes, the page given to the lower
`writepage` holds the zero bytes of the upper page, not their encoded form
(`PAGE_SIZE` bytes `0x01`). -/
theorem C2_writepage_lower_page_holds_plaintext :
    (xcfs_writepage (fun _ => 0) true 0
        (fun index _ => some ⟨index, List.replicate PAGE_SIZE 0x55, false, false, true⟩)
        ⟨0, List.replicate PAGE_SIZE 0x00, true, true, true⟩).trace.filterMap
          Event.lower_writepage_arg
      = [⟨0, List.replicate PAGE_SIZE 0x00, true, false, true⟩] ∧
    xcfs_encrypt (List.replicate PAGE_SIZE 0x00) PAGE_SIZE = List.replicate PAGE_SIZE 0x01 ∧
    List.replicate PAGE_SIZE (0x00 : Byte) ≠ List.replicate PAGE_SIZE 0x01 := by
  refine ⟨?_, ?_, ?_⟩
  · rw [xcfs_writepage_lower_arg _ _ _ _ ⟨0, List.replicate PAGE_SIZE 0x55, false, false, true⟩ rfl,
      xcfs_writepage_copy_data _ _ (List.length_replicate _ _) (List.length_replicate _ _)]
  · exact xcfs_encrypt_replicate PAGE_SIZE 0
  · intro h
    have h2 : (List.replicate PAGE_SIZE (0x00 : Byte))[0]? =
        (List.replicate PAGE_SIZE (0x01 : Byte))[0]? := by
      rw [h]
    rw [List.getElem?_replicate, List.getElem?_replicate, if_pos (by decide)] at h2
    exact absurd h2 (by decide)

/-- C6: when no lower page can be obtained, `xcfs_writepage` returns 0, the
upper page is dirty and unlocked (one `unlock_page`), its bytes are as
before, the lower `writepage` is not invoked, and the one lookup made was
made with `__GFP_FS` cleared from the mask. -/
theorem C6_writepage_no_lower_page (lower_writepage : Page → Int) (mapping_gfp_mask : Nat)
    (find_or_create_page : Nat → Nat → Option Page) (page : Page)
    (hfind : find_or_create_page page.index (mapping_gfp_mask &&& (2 ^ 32 - 1 - __GFP_FS))
      = none) :
    (xcfs_writepage lower_writepage true mapping_gfp_mask find_or_create_page page).ret = 0 ∧
    (xcfs_writepage lower_writepage true mapping_gfp_mask find_or_create_page page).page
      = { page with dirty := true, locked := false } ∧
    (xcfs_writepage lower_writepage true mapping_gfp_mask find_or_create_page page).lower_page
      = none ∧
    (xcfs_writepage lower_writepage true mapping_gfp_mask find_or_create_page page).trace
      = [Event.find_or_create_page page.index (mapping_gfp_mask &&& (2 ^ 32 - 1 - __GFP_FS)),
          Event.set_page_dirty, Event.unlock_page] ∧
    (∀ lower_page, Event.lower_writepage lower_page ∉
      (xcfs_writepage lower_writepage true mapping_gfp_mask find_or_create_page page).trace) ∧
    (xcfs_writepage lower_writepage true mapping_gfp_mask find_or_create_page page).trace.count
      Event.unlock_page = 1 ∧
    (mapping_gfp_mask &&& (2 ^ 32 - 1 - __GFP_FS)) &&& __GFP_FS = 0 := by
  have hres : xcfs_writepage lower_writepage true mapping_gfp_mask find_or_create_page page =
      ⟨0, { page with dirty := true, locked := false }, none,
        [Event.find_or_create_page page.index (mapping_gfp_mask &&& (2 ^ 32 - 1 - __GFP_FS)),
          Event.set_page_dirty, Event.unlock_page]⟩ := by
    simp only [xcfs_writepage, hfind, Bool.not_true, Bool.false_eq_true, if_false]
    rfl
  rw [hres]
  refine ⟨rfl, rfl, rfl, rfl, ?_, ?_, ?_⟩
  · intro lower_page hmem
    simp at hmem
  · simp
  · have h3 : (2 ^ 32 - 1 - __GFP_FS) &&& __GFP_FS = 0 := by decide
    rw [Nat.and_assoc, h3, Nat.and_zero]

/-- C6 at a page of index 3 and a lookup that never finds a page. -/
theorem C6_writepage_no_lower_page_witness :
    (xcfs_writepage (fun _ => -5) true 0xd0 (fun _ _ => none) ⟨3, [1, 2], true, false, true⟩).ret = 0 ∧
    (xcfs_writepage (fun _ => -5) true 0xd0 (fun _ _ => none) ⟨3, [1, 2], true, false, true⟩).page
      = ⟨3, [1, 2], true, true, false⟩ :=
  let h := C6_writepage_no_lower_page (fun _ => -5) 0xd0 (fun _ _ => none)
    ⟨3, [1, 2], true, false, true⟩ rfl
  ⟨h.1, h.2.1⟩

/-- C7: with a lower page obtained and the lower `writepage` returning `r`,
`xcfs_writepage` returns 0 when `r` is `AOP_WRITEPAGE_ACTIVATE` and `r`
itself when `r` is negative (and in every other case too); on each of these
paths the trace has one `put_page` of the lower page and one `unlock_page` of
the upper page. -/
theorem C7_writepage_result_and_release (r : Int) (mapping_gfp_mask : Nat)
    (find_or_create_page : Nat → Nat → Option Page) (page lower_page : Page)
    (hfind : find_or_create_page page.index (mapping_gfp_mask &&& (2 ^ 32 - 1 - __GFP_FS))
      = some lower_page) :
    (r = AOP_WRITEPAGE_ACTIVATE →
      (xcfs_writepage (fun _ => r) true mapping_gfp_mask find_or_create_page page).ret = 0) ∧
    (r < 0 →
      (xcfs_writepage (fun _ => r) true mapping_gfp_mask find_or_create_page page).ret = r) ∧
    (r ≠ AOP_WRITEPAGE_ACTIVATE →
      (xcfs_writepage (fun _ => r) true mapping_gfp_mask find_or_create_page page).ret = r) ∧
    (xcfs_writepage (fun _ => r) true mapping_gfp_mask find_or_create_page page).trace.count
      Event.put_lower_page = 1 ∧
    (xcfs_writepage (fun _ => r) true mapping_gfp_mask find_or_create_page page).trace.count
      Event.unlock_page = 1 ∧
    (xcfs_writepage (fun _ => r) true mapping_gfp_mask find_or_create_page page).page.locked
      = false := by
  have hact : ¬ (AOP_WRITEPAGE_ACTIVATE < 0) := by decide
  simp only [xcfs_writepage, hfind, Bool.not_true, Bool.false_eq_true, if_false,
    xcfs_writepage_release]
  refine ⟨?_, ?_, ?_, ?_, ?_, ?_⟩
  · intro h
    subst h
    simp [hact]
  · intro h
    simp [h]
  · intro h
    split_ifs <;> simp_all
  · split_ifs <;> simp
  · split_ifs <;> simp
  · split_ifs <;> rfl

/-- C7 at the result `AOP_WRITEPAGE_ACTIVATE`. -/
theorem C7_writepage_result_and_release_witness :
    (xcfs_writepage (fun _ => AOP_WRITEPAGE_ACTIVATE) true 0
      (fun index _ => some ⟨index, [0, 0], false, false, true⟩)
      ⟨1, [7, 8], true, true, true⟩).ret = 0 :=
  (C7_writepage_result_and_release AOP_WRITEPAGE_ACTIVATE 0
    (fun index _ => some ⟨index, [0, 0], false, false, true⟩)
    ⟨1, [7, 8], true, true, true⟩ ⟨1, [0, 0], false, false, true⟩ rfl).1 rfl

/-! ## xcfs_readpage -/

theorem to_int_of_range (x : Int) (h1 : -2 ^ 31 ≤ x) (h2 : x < 2 ^ 31) : to_int x = x := by
  unfold to_int
  omega

theorem memcpy_getElem_lt (dst src : List Byte) (n i : Nat) (h1 : i < n) (h2 : i < src.length) :
    (memcpy dst src n)[i]? = src[i]? := by
  unfold memcpy
  rw [List.getElem?_append_left (by rw [List.length_take]; omega), List.getElem?_take, if_pos h1]

theorem memcpy_length_ge (dst src : List Byte) (n : Nat) :
    min n src.length ≤ (memcpy dst src n).length := by
  unfold memcpy
  rw [List.length_append, List.length_take]
  omega

/-- Bytes of the page after a short read of `K` bytes `got`: decrypted bytes
below `K`, zero from `K` to the end of the page. -/
theorem xcfs_readpage_data_short (page_data got rest : List Byte) (K : Nat)
    (hK : K < PAGE_SIZE) (hc : got.length = K) :
    (∀ i, i < K → (xcfs_readpage_data page_data (got ++ rest) K)[i]? = got[i]?.map byte_dec) ∧
    (∀ i, K ≤ i → i < PAGE_SIZE →
      (xcfs_readpage_data page_data (got ++ rest) K)[i]? = some 0) := by
  have h1 : ¬ ((K : Int) < 0) := by omega
  have h2 : (0 : Int) ≤ K ∧ (K : Int) < PAGE_SIZE := by omega
  have hlen : K ≤ (xcfs_decrypt (memcpy page_data (got ++ rest) PAGE_SIZE) PAGE_SIZE).length := by
    rw [xcfs_decrypt_length]
    have h3 := memcpy_length_ge page_data (got ++ rest) PAGE_SIZE
    rw [List.length_append] at h3
    omega
  simp only [xcfs_readpage_data, h1, h2, if_false, and_self, if_true, Int.toNat_ofNat, memset]
  constructor
  · intro i hi
    rw [List.append_assoc, List.getElem?_append_left (by rw [List.length_take]; omega),
      List.getElem?_take, if_pos hi, xcfs_decrypt_getElem?, Int.toNat_ofNat,
      if_pos (by omega), memcpy_getElem_lt _ _ _ _ (by omega)
        (by rw [List.length_append]; omega),
      List.getElem?_append_left (by omega)]
  · intro i hi1 hi2
    have hl : (List.take K (xcfs_decrypt (memcpy page_data (got ++ rest) PAGE_SIZE)
        PAGE_SIZE)).length = K := by
      rw [List.length_take]
      omega
    rw [List.append_assoc, List.getElem?_append_right (by omega), hl,
      List.getElem?_append_left (by rw [List.length_replicate]; omega),
      List.getElem?_replicate, if_pos (by omega)]

/-- The call on a staging page, when the lower read does not fail. -/
theorem xcfs_readpage_ok (vfs_read : File → Nat → ReadResult) (stage : List Byte)
    (lower_file : File) (page : Page) (ret : Int) (buf : List Byte) (file_after : File)
    (hread : vfs_read ⟨page_offset page, lower_file.f_mode ||| FMODE_READ, lower_file.i_data⟩
      PAGE_SIZE = ⟨ret, buf, file_after⟩)
    (hret : ¬ to_int ret < 0) :
    xcfs_readpage vfs_read (PagePtr.page stage) lower_file page =
      ⟨some 0,
        ⟨page.index, xcfs_readpage_data page.data (memcpy stage buf buf.length) (to_int ret),
          true, page.dirty, false⟩,
        ⟨file_after.f_pos, lower_file.f_mode, file_after.i_data⟩,
        [Event.kmap_cipher_page, Event.kmap_page, Event.inode_lock,
          Event.vfs_read (page_offset page) PAGE_SIZE, Event.inode_unlock,
          Event.fsstack_copy_attr_atime, Event.kunmap_page, Event.flush_dcache_page,
          Event.kunmap_cipher_page, Event.free_cipher_page, Event.SetPageUptodate,
          Event.unlock_page]⟩ := by
  simp only [xcfs_readpage, IS_ERR, PagePtr.valid, PagePtr.contents, xcfs_readpage_out,
    Bool.false_eq_true, if_false, Bool.not_true, hread, hret, if_true, List.cons_append,
    List.nil_append, List.append_assoc]

/-- The call on a staging page, when the lower read fails. -/
theorem xcfs_readpage_err (vfs_read : File → Nat → ReadResult) (stage : List Byte)
    (lower_file : File) (page : Page) (ret : Int) (buf : List Byte) (file_after : File)
    (hread : vfs_read ⟨page_offset page, lower_file.f_mode ||| FMODE_READ, lower_file.i_data⟩
      PAGE_SIZE = ⟨ret, buf, file_after⟩)
    (hret : to_int ret < 0) :
    xcfs_readpage vfs_read (PagePtr.page stage) lower_file page =
      ⟨some (to_int ret),
        ⟨page.index, xcfs_readpage_data page.data (memcpy stage buf buf.length) (to_int ret),
          false, page.dirty, false⟩,
        ⟨file_after.f_pos, lower_file.f_mode, file_after.i_data⟩,
        [Event.kmap_cipher_page, Event.kmap_page, Event.inode_lock,
          Event.vfs_read (page_offset page) PAGE_SIZE, Event.inode_unlock,
          Event.kunmap_cipher_page, Event.free_cipher_page, Event.ClearPageUptodate,
          Event.unlock_page]⟩ := by
  have hne : to_int ret ≠ 0 := by omega
  simp only [xcfs_readpage, IS_ERR, PagePtr.valid, PagePtr.contents, xcfs_readpage_out,
    Bool.false_eq_true, if_false, Bool.not_true, hread, hret, hne, if_true, List.cons_append,
    List.nil_append, List.append_assoc]

theorem page_offset_eq (page : Page) :
    page_offset page = ((page.index * PAGE_SIZE : Nat) : Int) := by
  unfold page_offset
  rw [Nat.shiftLeft_eq]
  rfl

/-- C4: when the lower read issued by `xcfs_readpage` (at offset
`page.index * PAGE_SIZE`, for `PAGE_SIZE` bytes) returns `K < PAGE_SIZE`
bytes `got`, the call returns 0 and leaves in the page the bytes
`(got[i] - 1) mod 256` below `K` and zero from `K` to the end of the page,
whatever the staging page `stage` and the page held before. -/
theorem C4_readpage_short_read (vfs_read : File → Nat → ReadResult) (stage : List Byte)
    (lower_file : File) (page : Page) (K : Nat) (got : List Byte) (file_after : File)
    (hK : K < PAGE_SIZE) (hc : got.length = K)
    (hread : vfs_read ⟨((page.index * PAGE_SIZE : Nat) : Int), lower_file.f_mode ||| FMODE_READ,
      lower_file.i_data⟩ PAGE_SIZE = ⟨(K : Int), got, file_after⟩) :
    (xcfs_readpage vfs_read (PagePtr.page stage) lower_file page).ret = some 0 ∧
    (∀ i, i < K → ∀ x, got[i]? = some x →
      (xcfs_readpage vfs_read (PagePtr.page stage) lower_file page).page.data[i]?
        = some ⟨(x.val + 255) % 256, Nat.mod_lt _ (by decide)⟩) ∧
    (∀ i, K ≤ i → i < PAGE_SIZE →
      (xcfs_readpage vfs_read (PagePtr.page stage) lower_file page).page.data[i]? = some 0) ∧
    (xcfs_readpage vfs_read (PagePtr.page stage) lower_file page).trace.filterMap
      Event.vfs_read_arg = [(((page.index * PAGE_SIZE : Nat) : Int), PAGE_SIZE)] := by
  have hti : to_int (K : Int) = K :=
    to_int_of_range _ (by omega) (by rw [PAGE_SIZE_eq] at hK; omega)
  have hnn : ¬ (to_int (K : Int) < 0) := by rw [hti]; omega
  rw [← page_offset_eq] at hread
  rw [xcfs_readpage_ok vfs_read stage lower_file page K got file_after hread hnn, hti, hc,
    ← page_offset_eq]
  have hcipher : memcpy stage got K = got ++ stage.drop K := by
    unfold memcpy
    rw [List.take_of_length_le (by omega)]
  rw [hcipher]
  dsimp only
  obtain ⟨hA, hB⟩ := xcfs_readpage_data_short page.data got (stage.drop K) K hK hc
  refine ⟨rfl, ?_, hB, ?_⟩
  · intro i hi x hx
    have h1 := hA i hi
    rw [hx] at h1
    exact h1
  · simp only [List.filterMap_cons, List.filterMap_nil, Event.vfs_read_arg]

/-- C4 at a two-byte lower file read into page 0. -/
theorem C4_readpage_short_read_witness :
    (xcfs_readpage array_vfs_read (PagePtr.page (List.replicate PAGE_SIZE 0x77)) ⟨0, 0, [0x00, 0x42]⟩
      ⟨0, List.replicate PAGE_SIZE 0x11, false, false, true⟩).ret = some 0 :=
  (C4_readpage_short_read array_vfs_read (List.replicate PAGE_SIZE 0x77) ⟨0, 0, [0x00, 0x42]⟩
    ⟨0, List.replicate PAGE_SIZE 0x11, false, false, true⟩ 2 [0x00, 0x42] ⟨2, 1, [0x00, 0x42]⟩
    (by decide) rfl (by rfl)).1

/-- C8: with the lower read's result `ret` (a value of C `int` range), the
call returns 0 with the page marked up to date exactly when `ret` is not
negative, and then copies the access time once; when `ret` is negative it
returns `ret`, marks the page not up to date and copies no access time; on
both paths the trace has one `unlock_page`, one `inode_lock` and one
`inode_unlock`, and the page ends unlocked. -/
theorem C8_readpage_uptodate_and_unlock (vfs_read : File → Nat → ReadResult)
    (stage : List Byte) (lower_file : File) (page : Page)
    (ret : Int) (buf : List Byte) (file_after : File)
    (hread : vfs_read ⟨page_offset page, lower_file.f_mode ||| FMODE_READ,
      lower_file.i_data⟩ PAGE_SIZE = ⟨ret, buf, file_after⟩)
    (hlo : -2 ^ 31 ≤ ret) (hhi : ret < 2 ^ 31) :
    ((xcfs_readpage vfs_read (PagePtr.page stage) lower_file page).ret = some 0 ∧
      (xcfs_readpage vfs_read (PagePtr.page stage) lower_file page).page.uptodate = true
      ↔ 0 ≤ ret) ∧
    (0 ≤ ret →
      (xcfs_readpage vfs_read (PagePtr.page stage) lower_file page).trace.count
        Event.fsstack_copy_attr_atime = 1) ∧
    (ret < 0 →
      (xcfs_readpage vfs_read (PagePtr.page stage) lower_file page).ret = some ret ∧
      (xcfs_readpage vfs_read (PagePtr.page stage) lower_file page).page.uptodate = false ∧
      (xcfs_readpage vfs_read (PagePtr.page stage) lower_file page).trace.count
        Event.fsstack_copy_attr_atime = 0) ∧
    (xcfs_readpage vfs_read (PagePtr.page stage) lower_file page).trace.count
      Event.unlock_page = 1 ∧
    (xcfs_readpage vfs_read (PagePtr.page stage) lower_file page).trace.count
      Event.inode_lock = 1 ∧
    (xcfs_readpage vfs_read (PagePtr.page stage) lower_file page).trace.count
      Event.inode_unlock = 1 ∧
    (xcfs_readpage vfs_read (PagePtr.page stage) lower_file page).page.locked = false := by
  have hti : to_int ret = ret := to_int_of_range ret hlo hhi
  by_cases hneg : ret < 0
  · have hnot : ¬ (0 ≤ ret) := by omega
    have hne : ret ≠ 0 := by omega
    rw [xcfs_readpage_err vfs_read stage lower_file page ret buf file_after hread
      (by rw [hti]; exact hneg), hti]
    dsimp only
    refine ⟨?_, ?_, ?_, ?_, ?_, ?_, rfl⟩
    · simp [hnot]
    · intro h
      exact absurd h hnot
    · intro _
      refine ⟨rfl, rfl, ?_⟩
      simp
    · simp
    · simp
    · simp
  · have hpos : 0 ≤ ret := by omega
    rw [xcfs_readpage_ok vfs_read stage lower_file page ret buf file_after hread
      (by rw [hti]; exact hneg), hti]
    dsimp only
    refine ⟨?_, ?_, ?_, ?_, ?_, ?_, rfl⟩
    · simp [hpos]
    · intro _
      simp
    · intro h
      exact absurd h hneg
    · simp
    · simp
    · simp

/-- C8 at a lower read that fails with `-5` (`-EIO`). -/
theorem C8_readpage_uptodate_and_unlock_witness :
    (xcfs_readpage (fun f _ => ⟨-5, [], f⟩) (PagePtr.page [0, 0]) ⟨0, 0, []⟩
      ⟨0, [1, 1], true, false, true⟩).trace.count Event.unlock_page = 1 :=
  (C8_readpage_uptodate_and_unlock (fun f _ => ⟨-5, [], f⟩) [0, 0] ⟨0, 0, []⟩
    ⟨0, [1, 1], true, false, true⟩ (-5) []
    ⟨page_offset ⟨0, [1, 1], true, false, true⟩, 0 ||| FMODE_READ, []⟩
    rfl (by decide) (by decide)).2.2.2.1

/-! ## Staging-page allocation failure -/

/-- C9: when `alloc_page` yields `NULL`, `IS_ERR` does not hold of it and
`xcfs_readpage` goes on to issue the lower read into the staging mapping,
with no value returned; `xcfs_write_end` goes on to copy the page into the
staging mapping, with no value returned. Neither returns a negative error. -/
theorem C9_alloc_page_null_not_handled (vfs_read : File → Nat → ReadResult)
    (vfs_write : File → List Byte → Nat → WriteResult) (lower_file : File) (page : Page)
    (pos copied : Nat) :
    IS_ERR PagePtr.null = false ∧
    (xcfs_readpage vfs_read PagePtr.null lower_file page).ret = none ∧
    (xcfs_readpage vfs_read PagePtr.null lower_file page).trace =
      [Event.kmap_cipher_page, Event.kmap_page, Event.inode_lock,
        Event.vfs_read (page_offset page) PAGE_SIZE] ∧
    (xcfs_readpage vfs_read PagePtr.null lower_file page).page = page ∧
    (xcfs_write_end vfs_write PagePtr.null (some lower_file) pos copied page).ret = none ∧
    (xcfs_write_end vfs_write PagePtr.null (some lower_file) pos copied page).trace =
      [Event.kmap_page, Event.kmap_cipher_page, Event.memcpy_cipher] := by
  refine ⟨rfl, rfl, rfl, rfl, rfl, rfl⟩

/-! ## xcfs_file_llseek -/

/-- C10: on files at offset 0 of a filesystem with `s_maxbytes = 2^63 - 1`,
`SEEK_SET` to `2^31` moves the upper file to `2^31`, returns `-2147483648`
and leaves the lower file at 0; `SEEK_SET` to `2^32 + 5` moves both files to
`2^32 + 5` and returns 5. -/
theorem C10_llseek_result_truncated_to_int :
    xcfs_file_llseek (generic_file_llseek (2 ^ 63 - 1)) ⟨0, 3, []⟩ ⟨0, 3, []⟩ (2 ^ 31) SEEK_SET
      = ⟨-2147483648, ⟨2147483648, 3, []⟩, ⟨0, 3, []⟩⟩ ∧
    xcfs_file_llseek (generic_file_llseek (2 ^ 63 - 1)) ⟨0, 3, []⟩ ⟨0, 3, []⟩ (2 ^ 32 + 5) SEEK_SET
      = ⟨5, ⟨4294967301, 3, []⟩, ⟨4294967301, 3, []⟩⟩ := by
  constructor <;> decide

/-! ## xcfs_write_end -/

theorem or_and_self (m k : Nat) : (m ||| k) &&& k = k := by
  apply Nat.eq_of_testBit_eq
  intro i
  rw [Nat.testBit_and, Nat.testBit_or]
  cases m.testBit i <;> cases k.testBit i <;> rfl

theorem fmode_write_set (m : Nat) : (m ||| FMODE_WRITE) &&& FMODE_WRITE ≠ 0 := by
  rw [or_and_self]
  decide

theorem fmode_read_set (m : Nat) : (m ||| FMODE_READ) &&& FMODE_READ ≠ 0 := by
  rw [or_and_self]
  decide

theorem write_end_from (pos : Nat) :
    to_unsigned (pos &&& (PAGE_SIZE - 1)) = pos % PAGE_SIZE := by
  have h1 : PAGE_SIZE - 1 = 2 ^ 12 - 1 := by decide
  have h2 : PAGE_SIZE = 2 ^ 12 := by decide
  rw [h1, Nat.and_pow_two_sub_one_eq_mod, h2]
  unfold to_unsigned
  omega

theorem write_end_bytes (from_ copied : Nat) (h : from_ + copied ≤ PAGE_SIZE) :
    to_unsigned (to_unsigned (from_ + copied) + 2 ^ 32 - from_) = copied := by
  rw [PAGE_SIZE_eq] at h
  unfold to_unsigned
  omega

theorem page_offset_add_from (pos : Nat) (page : Page) (hidx : page.index = pos >>> PAGE_SHIFT) :
    page_offset page + ((pos % PAGE_SIZE : Nat) : Int) = (pos : Int) := by
  have h2 : PAGE_SIZE = 2 ^ 12 := by decide
  have h3 : PAGE_SHIFT = 12 := rfl
  unfold page_offset
  rw [hidx, Nat.shiftLeft_eq, Nat.shiftRight_eq_div_pow, h2, h3]
  have h4 := Nat.div_add_mod pos (2 ^ 12)
  push_cast
  omega

/-- The staging buffer `xcfs_write_end` writes from: within the page it is
the encrypted page. -/
theorem write_end_cipher_slice (stage page_data : List Byte) (from_ copied : Nat)
    (hpage : page_data.length = PAGE_SIZE) (h : from_ + copied ≤ PAGE_SIZE) :
    ((xcfs_encrypt (memcpy stage page_data PAGE_SIZE) PAGE_SIZE).drop from_).take copied =
      ((xcfs_encrypt page_data PAGE_SIZE).drop from_).take copied := by
  apply List.ext_getElem?
  intro i
  rw [List.getElem?_take, List.getElem?_take]
  by_cases hi : i < copied
  · rw [if_pos hi, if_pos hi, List.getElem?_drop, List.getElem?_drop, xcfs_encrypt_getElem?,
      xcfs_encrypt_getElem?, Int.toNat_ofNat, if_pos (by omega), if_pos (by omega),
      memcpy_getElem_lt _ _ _ _ (by omega) (by omega)]
  · rw [if_neg hi, if_neg hi]

/-- The call on a bound file and a staging page, when the lower write does
not fail. -/
theorem xcfs_write_end_ok (vfs_write : File → List Byte → Nat → WriteResult)
    (stage : List Byte) (lower_file : File) (pos copied : Nat) (page : Page)
    (ret : Int) (file_after : File)
    (h : pos % PAGE_SIZE + copied ≤ PAGE_SIZE)
    (hwrite : vfs_write ⟨page_offset page + ((pos % PAGE_SIZE : Nat) : Int),
        lower_file.f_mode ||| FMODE_WRITE, lower_file.i_data⟩
      ((xcfs_encrypt (memcpy stage page.data PAGE_SIZE) PAGE_SIZE).drop (pos % PAGE_SIZE))
      copied = ⟨ret, file_after⟩)
    (hret : ¬ to_int ret < 0) :
    xcfs_write_end vfs_write (PagePtr.page stage) (some lower_file) pos copied page =
      ⟨some (to_int ret), ⟨page.index, page.data, page.uptodate, page.dirty, false⟩,
        some file_after,
        [Event.kmap_page, Event.kmap_cipher_page, Event.memcpy_cipher,
          Event.vfs_write (page_offset page + ((pos % PAGE_SIZE : Nat) : Int))
            (((xcfs_encrypt (memcpy stage page.data PAGE_SIZE) PAGE_SIZE).drop
              (pos % PAGE_SIZE)).take copied) copied,
          Event.kunmap_page, Event.fsstack_copy_inode_size, Event.fsstack_copy_attr_times,
          Event.mark_inode_dirty_sync, Event.kunmap_cipher_page, Event.free_cipher_page,
          Event.unlock_page, Event.put_page]⟩ := by
  simp only [xcfs_write_end, write_end_from, write_end_bytes _ _ h, PagePtr.valid,
    PagePtr.contents, xcfs_write_end_out, Bool.not_true, Bool.false_eq_true, if_false,
    hwrite, hret, List.cons_append, List.nil_append, List.append_assoc]

/-- The call on a bound file and a staging page, when the lower write
fails. -/
theorem xcfs_write_end_err (vfs_write : File → List Byte → Nat → WriteResult)
    (stage : List Byte) (lower_file : File) (pos copied : Nat) (page : Page)
    (ret : Int) (file_after : File)
    (h : pos % PAGE_SIZE + copied ≤ PAGE_SIZE)
    (hwrite : vfs_write ⟨page_offset page + ((pos % PAGE_SIZE : Nat) : Int),
        lower_file.f_mode ||| FMODE_WRITE, lower_file.i_data⟩
      ((xcfs_encrypt (memcpy stage page.data PAGE_SIZE) PAGE_SIZE).drop (pos % PAGE_SIZE))
      copied = ⟨ret, file_after⟩)
    (hret : to_int ret < 0) :
    xcfs_write_end vfs_write (PagePtr.page stage) (some lower_file) pos copied page =
      ⟨some (to_int ret), ⟨page.index, page.data, false, page.dirty, false⟩,
        some file_after,
        [Event.kmap_page, Event.kmap_cipher_page, Event.memcpy_cipher,
          Event.vfs_write (page_offset page + ((pos % PAGE_SIZE : Nat) : Int))
            (((xcfs_encrypt (memcpy stage page.data PAGE_SIZE) PAGE_SIZE).drop
              (pos % PAGE_SIZE)).take copied) copied,
          Event.kunmap_page, Event.kunmap_cipher_page, Event.free_cipher_page,
          Event.ClearPageUptodate, Event.unlock_page, Event.put_page]⟩ := by
  simp only [xcfs_write_end, write_end_from, write_end_bytes _ _ h, PagePtr.valid,
    PagePtr.contents, xcfs_write_end_out, Bool.not_true, Bool.false_eq_true, if_false,
    hwrite, hret, if_true, List.cons_append, List.nil_append, List.append_assoc]

theorem array_vfs_write_outside (f : File) (buf : List Byte) (count i : Nat)
    (hmode : f.f_mode &&& FMODE_WRITE ≠ 0)
    (hi : i < f.f_pos.toNat ∨ f.f_pos.toNat + count ≤ i) (hlen : i < f.i_data.length) :
    (array_vfs_write f buf count).file.i_data[i]? = f.i_data[i]? := by
  simp only [array_vfs_write, hmode, if_false]
  have hsrc : (List.take count buf).length ≤ count := by
    rw [List.length_take]
    omega
  rcases hi with h1 | h2
  · rw [List.append_assoc, List.append_assoc,
      List.getElem?_append_left (by rw [List.length_take]; omega), List.getElem?_take,
      if_pos h1]
  · have hhead : (List.take f.f_pos.toNat f.i_data ++
        List.replicate (f.f_pos.toNat - f.i_data.length) (0 : Byte)).length = f.f_pos.toNat := by
      rw [List.length_append, List.length_take, List.length_replicate]
      omega
    rw [List.getElem?_append_right (by rw [List.length_append, hhead]; omega),
      List.getElem?_drop, List.length_append, hhead]
    congr 1
    omega

/-- The lower writes of a call on a bound file and a staging page: one, of
`copied` bytes at `page_offset page + from`, from the staging buffer. -/
theorem xcfs_write_end_writes (vfs_write : File → List Byte → Nat → WriteResult)
    (stage : List Byte) (lower_file : File) (pos copied : Nat) (page : Page)
    (h : pos % PAGE_SIZE + copied ≤ PAGE_SIZE) :
    (xcfs_write_end vfs_write (PagePtr.page stage) (some lower_file) pos copied
        page).trace.filterMap Event.vfs_write_arg =
      [(page_offset page + ((pos % PAGE_SIZE : Nat) : Int),
        ((xcfs_encrypt (memcpy stage page.data PAGE_SIZE) PAGE_SIZE).drop
          (pos % PAGE_SIZE)).take copied, copied)] ∧
    (xcfs_write_end vfs_write (PagePtr.page stage) (some lower_file) pos copied
        page).page.data = page.data ∧
    (xcfs_write_end vfs_write (PagePtr.page stage) (some lower_file) pos copied
        page).lower_file =
      some (vfs_write ⟨page_offset page + ((pos % PAGE_SIZE : Nat) : Int),
          lower_file.f_mode ||| FMODE_WRITE, lower_file.i_data⟩
        ((xcfs_encrypt (memcpy stage page.data PAGE_SIZE) PAGE_SIZE).drop (pos % PAGE_SIZE))
        copied).file := by
  generalize hw : vfs_write ⟨page_offset page + ((pos % PAGE_SIZE : Nat) : Int),
      lower_file.f_mode ||| FMODE_WRITE, lower_file.i_data⟩
    ((xcfs_encrypt (memcpy stage page.data PAGE_SIZE) PAGE_SIZE).drop (pos % PAGE_SIZE))
    copied = w
  obtain ⟨ret, file_after⟩ := w
  by_cases hret : to_int ret < 0
  · rw [xcfs_write_end_err vfs_write stage lower_file pos copied page ret file_after h hw hret]
    dsimp only
    refine ⟨?_, rfl, rfl⟩
    simp only [List.filterMap_cons, List.filterMap_nil, Event.vfs_write_arg]
  · rw [xcfs_write_end_ok vfs_write stage lower_file pos copied page ret file_after h hw hret]
    dsimp only
    refine ⟨?_, rfl, rfl⟩
    simp only [List.filterMap_cons, List.filterMap_nil, Event.vfs_write_arg]

/-- C5: for `pos` and `copied` with `pos mod PAGE_SIZE + copied <= PAGE_SIZE`
and the page of index `pos >> PAGE_SHIFT`, a call of `xcfs_write_end` on a
bound lower file issues one lower write: `copied` bytes (the value of the
`unsigned` expression `(from + copied) - from`), at offset `pos`, taken from
bytes `[from, from + copied)` of the encrypted page; the upper page keeps
its bytes; and on a byte-array lower file every byte outside
`[pos, pos + copied)` is as before. -/
theorem C5_write_end_single_write (vfs_write : File → List Byte → Nat → WriteResult)
    (stage : List Byte) (lower_file : File) (pos copied : Nat) (page : Page)
    (hrange : pos % PAGE_SIZE + copied ≤ PAGE_SIZE)
    (hidx : page.index = pos >>> PAGE_SHIFT)
    (hpage : page.data.length = PAGE_SIZE) :
    (xcfs_write_end vfs_write (PagePtr.page stage) (some lower_file) pos copied
        page).trace.filterMap Event.vfs_write_arg =
      [((pos : Int),
        ((xcfs_encrypt page.data PAGE_SIZE).drop (pos % PAGE_SIZE)).take copied, copied)] ∧
    (xcfs_write_end vfs_write (PagePtr.page stage) (some lower_file) pos copied
        page).page.data = page.data ∧
    to_unsigned (pos &&& (PAGE_SIZE - 1)) = pos % PAGE_SIZE ∧
    to_unsigned (to_unsigned (pos % PAGE_SIZE + copied) + 2 ^ 32 - pos % PAGE_SIZE) = copied ∧
    (∃ f, (xcfs_write_end array_vfs_write (PagePtr.page stage) (some lower_file) pos copied
        page).lower_file = some f ∧
      ∀ i, (i < pos ∨ pos + copied ≤ i) → i < lower_file.i_data.length →
        f.i_data[i]? = lower_file.i_data[i]?) := by
  obtain ⟨h1, h2, _⟩ := xcfs_write_end_writes vfs_write stage lower_file pos copied page hrange
  obtain ⟨_, _, h3⟩ :=
    xcfs_write_end_writes array_vfs_write stage lower_file pos copied page hrange
  rw [page_offset_add_from pos page hidx] at h1 h3
  rw [write_end_cipher_slice stage page.data _ _ hpage hrange] at h1
  refine ⟨h1, h2, write_end_from pos, write_end_bytes _ _ hrange, _, h3, ?_⟩
  intro i hi hlen
  exact array_vfs_write_outside ⟨(pos : Int), lower_file.f_mode ||| FMODE_WRITE,
    lower_file.i_data⟩ _ copied i (fmode_write_set _) hi hlen

/-- C5 at a write of 3 bytes at offset `PAGE_SIZE + 2` into page 1. -/
theorem C5_write_end_single_write_witness :
    (xcfs_write_end array_vfs_write (PagePtr.page (List.replicate PAGE_SIZE 0))
        (some ⟨0, 0, []⟩) (PAGE_SIZE + 2) 3
        ⟨1, List.replicate PAGE_SIZE 0x41, true, false, true⟩).page.data
      = List.replicate PAGE_SIZE 0x41 :=
  (C5_write_end_single_write array_vfs_write (List.replicate PAGE_SIZE 0) ⟨0, 0, []⟩
    (PAGE_SIZE + 2) 3 ⟨1, List.replicate PAGE_SIZE 0x41, true, false, true⟩
    (by decide) (by decide) (List.length_replicate _ _)).2.1

/-! ## Write, then read back -/

theorem xcfs_encrypt_page (data : List Byte) (h : data.length = PAGE_SIZE) :
    xcfs_encrypt data PAGE_SIZE = data.map byte_inc := by
  rw [xcfs_encrypt_eq, Int.toNat_ofNat, List.take_of_length_le (by omega),
    List.drop_of_length_le (by omega), List.append_nil]

theorem xcfs_decrypt_page (data : List Byte) (h : data.length = PAGE_SIZE) :
    xcfs_decrypt data PAGE_SIZE = data.map byte_dec := by
  rw [xcfs_decrypt_eq, Int.toNat_ofNat, List.take_of_length_le (by omega),
    List.drop_of_length_le (by omega), List.append_nil]

/-- A write at the end of a byte-array file appends. -/
theorem array_vfs_write_append (pos mode : Nat) (data buf : List Byte) (count : Nat)
    (hmode : mode &&& FMODE_WRITE ≠ 0) (hdata : data.length = pos)
    (hbuf : (buf.take count).length = count) :
    (array_vfs_write ⟨(pos : Int), mode, data⟩ buf count).file =
      ⟨(pos : Int) + (count : Int), mode, data ++ buf.take count⟩ := by
  unfold array_vfs_write
  rw [if_neg hmode]
  dsimp only
  rw [Int.toNat_ofNat, hbuf, List.take_of_length_le (by omega),
    List.drop_of_length_le (by omega), hdata, Nat.sub_self, List.replicate_zero,
    List.append_nil, List.append_nil]

/-- One `xcfs_write_end` at the end of a byte-array lower file that holds
`index` whole pages: the encrypted first `copied` bytes of the page are
appended. -/
theorem xcfs_write_end_append (stage : List Byte) (lower_file : File) (index copied : Nat)
    (p : List Byte) (hcopied : copied ≤ PAGE_SIZE) (hp : p.length = PAGE_SIZE)
    (hfile : lower_file.i_data.length = index * PAGE_SIZE) :
    (xcfs_write_end array_vfs_write (PagePtr.page stage) (some lower_file)
        (index * PAGE_SIZE) copied ⟨index, p, true, false, true⟩).lower_file =
      some ⟨((index * PAGE_SIZE : Nat) : Int) + (copied : Int),
        lower_file.f_mode ||| FMODE_WRITE,
        lower_file.i_data ++ (p.map byte_inc).take copied⟩ := by
  have hmod : index * PAGE_SIZE % PAGE_SIZE = 0 := Nat.mul_mod_left _ _
  have hrange : index * PAGE_SIZE % PAGE_SIZE + copied ≤ PAGE_SIZE := by omega
  have hslice := write_end_cipher_slice stage p 0 copied hp (by omega)
  rw [List.drop_zero, List.drop_zero, xcfs_encrypt_page p hp] at hslice
  have hlen : (List.take copied (xcfs_encrypt (memcpy stage p PAGE_SIZE) PAGE_SIZE)).length
      = copied := by
    rw [hslice, List.length_take, List.length_map]
    omega
  have hoff : page_offset ⟨index, p, true, false, true⟩ + ((0 : Nat) : Int) =
      ((index * PAGE_SIZE : Nat) : Int) := by
    rw [page_offset_eq]
    simp
  obtain ⟨_, _, h3⟩ := xcfs_write_end_writes array_vfs_write stage lower_file
    (index * PAGE_SIZE) copied ⟨index, p, true, false, true⟩ hrange
  rw [h3, hmod, List.drop_zero, hoff,
    array_vfs_write_append _ _ _ _ _ (fmode_write_set _) hfile hlen, hslice]

/-- The bytes `xcfs_readpage` leaves in the page after a read of `K` bytes
`got`, for a staging page and a target page of `PAGE_SIZE` bytes. -/
theorem xcfs_readpage_data_eq (fresh stage got : List Byte) (K : Nat)
    (hK : K ≤ PAGE_SIZE) (hgot : got.length = K) (hstage : stage.length = PAGE_SIZE)
    (hfresh : fresh.length = PAGE_SIZE) :
    xcfs_readpage_data fresh (memcpy stage got K) K =
      got.map byte_dec ++ List.replicate (PAGE_SIZE - K) 0 := by
  have hcipher : memcpy stage got K = got ++ stage.drop K := by
    unfold memcpy
    rw [List.take_of_length_le (by omega)]
  have hclen : (got ++ stage.drop K).length = PAGE_SIZE := by
    rw [List.length_append, List.length_drop]
    omega
  have h1 : ¬ ((K : Int) < 0) := by omega
  rw [hcipher]
  unfold xcfs_readpage_data
  rw [if_neg h1, memcpy_full _ _ _ hclen hfresh, xcfs_decrypt_page _ hclen, List.map_append]
  by_cases hlt : K < PAGE_SIZE
  · have h2 : (0 : Int) ≤ K ∧ (K : Int) < PAGE_SIZE := by omega
    have hl : (List.map byte_dec got).length = K := by rw [List.length_map, hgot]
    rw [if_pos h2]
    unfold memset
    rw [Int.toNat_ofNat, List.take_left' hl, List.drop_of_length_le (by
      rw [List.length_append, List.length_map, List.length_map, List.length_drop]
      omega), List.append_nil]
  · have h2 : ¬ ((0 : Int) ≤ K ∧ (K : Int) < PAGE_SIZE) := by omega
    rw [if_neg h2, List.drop_of_length_le (by omega), List.map_nil]
    have h3 : PAGE_SIZE - K = 0 := by omega
    rw [h3, List.replicate_zero]

/-- One `xcfs_readpage` of page `index` of a byte-array lower file. -/
theorem xcfs_readpage_array (stage fresh : List Byte) (lower_file : File) (index : Nat)
    (hstage : stage.length = PAGE_SIZE) (hfresh : fresh.length = PAGE_SIZE) :
    (xcfs_readpage array_vfs_read (PagePtr.page stage) lower_file
        ⟨index, fresh, false, false, true⟩).page.data =
      ((lower_file.i_data.drop (index * PAGE_SIZE)).take PAGE_SIZE).map byte_dec ++
        List.replicate
          (PAGE_SIZE - ((lower_file.i_data.drop (index * PAGE_SIZE)).take PAGE_SIZE).length) 0 ∧
    (xcfs_readpage array_vfs_read (PagePtr.page stage) lower_file
        ⟨index, fresh, false, false, true⟩).lower_file.i_data = lower_file.i_data := by
  have hK : ((lower_file.i_data.drop (index * PAGE_SIZE)).take PAGE_SIZE).length ≤ PAGE_SIZE := by
    rw [List.length_take]
    omega
  have hread : array_vfs_read ⟨page_offset ⟨index, fresh, false, false, true⟩,
      lower_file.f_mode ||| FMODE_READ, lower_file.i_data⟩ PAGE_SIZE =
      ⟨(((lower_file.i_data.drop (index * PAGE_SIZE)).take PAGE_SIZE).length : Nat),
        (lower_file.i_data.drop (index * PAGE_SIZE)).take PAGE_SIZE,
        ⟨page_offset ⟨index, fresh, false, false, true⟩ +
          (((lower_file.i_data.drop (index * PAGE_SIZE)).take PAGE_SIZE).length : Nat),
          lower_file.f_mode ||| FMODE_READ, lower_file.i_data⟩⟩ := by
    simp only [array_vfs_read, fmode_read_set, if_false, page_offset_eq, Int.toNat_ofNat]
  have hti : to_int ((((lower_file.i_data.drop (index * PAGE_SIZE)).take PAGE_SIZE).length : Nat) :
      Int) = (((lower_file.i_data.drop (index * PAGE_SIZE)).take PAGE_SIZE).length : Nat) :=
    to_int_of_range _ (by omega) (by have hps := PAGE_SIZE_eq; omega)
  rw [xcfs_readpage_ok array_vfs_read stage lower_file ⟨index, fresh, false, false, true⟩ _ _ _
    hread (by rw [hti]; omega), hti]
  dsimp only
  exact ⟨xcfs_readpage_data_eq fresh stage _ _ hK rfl hstage hfresh, rfl⟩

/-- Committing pages at the end of a byte-array lower file that holds
`index` whole pages appends the encrypted bytes, `remaining` of them. -/
theorem commit_pages_append (stage : Nat → List Byte) (pages : List (List Byte)) :
    ∀ (index remaining : Nat) (lower_file : File),
      (∀ p ∈ pages, p.length = PAGE_SIZE) →
      lower_file.i_data.length = index * PAGE_SIZE →
      pages.length * PAGE_SIZE < remaining + PAGE_SIZE →
      remaining ≤ pages.length * PAGE_SIZE →
      ∃ f, commit_pages stage index remaining pages (some lower_file) = some f ∧
        f.i_data = lower_file.i_data ++ (pages.flatten.map byte_inc).take remaining := by
  have hps := PAGE_SIZE_eq
  induction pages with
  | nil =>
    intro index remaining lower_file _ _ _ hle
    refine ⟨lower_file, rfl, ?_⟩
    have h0 : remaining = 0 := by
      rw [List.length_nil] at hle
      omega
    rw [h0, List.take_zero, List.append_nil]
  | cons p ps ih =>
    intro index remaining lower_file hpages hfile hlt hle
    have hp : p.length = PAGE_SIZE := hpages p (List.mem_cons_self _ _)
    have hps2 : ∀ q ∈ ps, q.length = PAGE_SIZE := fun q hq => hpages q (List.mem_cons_of_mem _ hq)
    rw [List.length_cons] at hlt hle
    have hmul : (ps.length + 1) * PAGE_SIZE = ps.length * PAGE_SIZE + PAGE_SIZE := by
      rw [Nat.add_mul, Nat.one_mul]
    have hstep := xcfs_write_end_append (stage index) lower_file index (min PAGE_SIZE remaining) p
      (Nat.min_le_left _ _) hp hfile
    unfold commit_pages
    dsimp only
    rw [hstep]
    by_cases hfull : PAGE_SIZE ≤ remaining
    · have hmin : min PAGE_SIZE remaining = PAGE_SIZE := Nat.min_eq_left hfull
      rw [hmin]
      obtain ⟨f, hf1, hf2⟩ := ih (index + 1) (remaining - PAGE_SIZE)
        ⟨((index * PAGE_SIZE : Nat) : Int) + (PAGE_SIZE : Int),
          lower_file.f_mode ||| FMODE_WRITE,
          lower_file.i_data ++ (p.map byte_inc).take PAGE_SIZE⟩ hps2
        (by
          simp only [List.length_append, List.length_take, List.length_map, hfile, hp,
            Nat.min_self, Nat.add_mul, Nat.one_mul])
        (by omega) (by omega)
      refine ⟨f, hf1, ?_⟩
      rw [hf2]
      dsimp only
      have e1 : List.take PAGE_SIZE (List.map byte_inc p) = List.map byte_inc p :=
        List.take_of_length_le (by rw [List.length_map, hp])
      have e2 : List.take remaining (List.map byte_inc p) = List.map byte_inc p :=
        List.take_of_length_le (by rw [List.length_map, hp]; omega)
      rw [List.flatten_cons, List.map_append, List.take_append_eq_append_take,
        List.length_map, hp, List.append_assoc, e1, e2]
    · have hmin : min PAGE_SIZE remaining = remaining := Nat.min_eq_right (by omega)
      have hnil : ps = [] := by
        apply List.eq_nil_of_length_eq_zero
        by_contra hne
        have h1 : 1 ≤ ps.length := by omega
        have h2 : PAGE_SIZE ≤ ps.length * PAGE_SIZE := by
          calc PAGE_SIZE = 1 * PAGE_SIZE := (Nat.one_mul _).symm
            _ ≤ ps.length * PAGE_SIZE := Nat.mul_le_mul_right _ h1
        omega
      subst hnil
      rw [hmin, Nat.sub_self]
      refine ⟨_, rfl, ?_⟩
      dsimp only
      rw [List.flatten_cons, List.flatten_nil, List.append_nil]

/-- Reading `n` pages of a byte-array lower file from page `index` on: the
bytes read, up to the end of the file, are the decrypted bytes of the file
from offset `index * PAGE_SIZE` on. -/
theorem read_pages_flatten (stage fresh : Nat → List Byte)
    (hstage : ∀ k, (stage k).length = PAGE_SIZE) (hfresh : ∀ k, (fresh k).length = PAGE_SIZE)
    (n : Nat) :
    ∀ (index : Nat) (lower_file : File),
      lower_file.i_data.length - index * PAGE_SIZE ≤ n * PAGE_SIZE →
      ((read_pages stage fresh n index lower_file).flatten).take
          (lower_file.i_data.length - index * PAGE_SIZE) =
        (lower_file.i_data.drop (index * PAGE_SIZE)).map byte_dec := by
  have hps := PAGE_SIZE_eq
  induction n with
  | zero =>
    intro index lower_file hle
    have h0 : lower_file.i_data.length - index * PAGE_SIZE = 0 := by omega
    rw [h0, List.take_zero, List.drop_of_length_le (by omega), List.map_nil]
  | succ n ih =>
    intro index lower_file hle
    obtain ⟨hdata, hfile⟩ := xcfs_readpage_array (stage index) (fresh index) lower_file index
      (hstage index) (hfresh index)
    have hmul : (index + 1) * PAGE_SIZE = index * PAGE_SIZE + PAGE_SIZE := by
      rw [Nat.add_mul, Nat.one_mul]
    have hmul2 : (n + 1) * PAGE_SIZE = n * PAGE_SIZE + PAGE_SIZE := by
      rw [Nat.add_mul, Nat.one_mul]
    have hnext := ih (index + 1)
      (xcfs_readpage array_vfs_read (PagePtr.page (stage index)) lower_file
        ⟨index, fresh index, false, false, true⟩).lower_file
      (by rw [hfile]; omega)
    rw [hfile] at hnext
    unfold read_pages
    dsimp only
    rw [List.flatten_cons, hdata]
    have hlen : ((lower_file.i_data.drop (index * PAGE_SIZE)).take PAGE_SIZE).length =
        min PAGE_SIZE (lower_file.i_data.length - index * PAGE_SIZE) := by
      rw [List.length_take, List.length_drop]
    rw [hlen]
    by_cases hfull : PAGE_SIZE ≤ lower_file.i_data.length - index * PAGE_SIZE
    · rw [Nat.min_eq_left hfull, Nat.sub_self, List.replicate_zero, List.append_nil,
        List.take_append_eq_append_take, List.length_map, hlen, Nat.min_eq_left hfull,
        List.take_of_length_le (by rw [List.length_map, hlen]; omega)]
      have hsub : lower_file.i_data.length - index * PAGE_SIZE - PAGE_SIZE =
          lower_file.i_data.length - (index + 1) * PAGE_SIZE := by omega
      rw [hsub, hnext, ← List.map_append, hmul, ← List.drop_drop, List.take_append_drop]
    · have hshort : lower_file.i_data.length - index * PAGE_SIZE < PAGE_SIZE := by omega
      have hall : (lower_file.i_data.drop (index * PAGE_SIZE)).take PAGE_SIZE =
          lower_file.i_data.drop (index * PAGE_SIZE) := by
        apply List.take_of_length_le
        rw [List.length_drop]
        omega
      rw [hall, List.append_assoc]
      apply List.take_left'
      rw [List.length_map, List.length_drop]

/-- C3: for a byte sequence `d` of length `N` held, page by page, in upper
pages `pages` (each of `PAGE_SIZE` bytes, `ceil(N / PAGE_SIZE)` of them, the
rest of the last page arbitrary), committing the pages from offset 0 through
`xcfs_write_end` into an empty byte-array lower file and reading the same
number of pages back through `xcfs_readpage` gives pages whose first `N`
bytes, concatenated, are `d`; the lower file then holds `N` bytes, the
encrypted `d`. Staging pages and the pages read into hold arbitrary bytes
beforehand. -/
theorem C3_write_then_read_roundtrip (N : Nat) (d : List Byte) (pages : List (List Byte))
    (stage_w stage_r fresh : Nat → List Byte) (f_pos : Int) (f_mode : Nat)
    (_hN : 1 ≤ N) (hd : d.length = N)
    (hcount : pages.length = (N + PAGE_SIZE - 1) / PAGE_SIZE)
    (hpages : ∀ p ∈ pages, p.length = PAGE_SIZE)
    (hdata : pages.flatten.take N = d)
    (hstage : ∀ k, (stage_r k).length = PAGE_SIZE)
    (hfresh : ∀ k, (fresh k).length = PAGE_SIZE) :
    ∃ lower_file,
      commit_pages stage_w 0 N pages (some ⟨f_pos, f_mode, []⟩) = some lower_file ∧
      lower_file.i_data = d.map byte_inc ∧
      ((read_pages stage_r fresh pages.length 0 lower_file).flatten).take N = d := by
  have hps := PAGE_SIZE_eq
  have hbounds : pages.length * PAGE_SIZE < N + PAGE_SIZE ∧ N ≤ pages.length * PAGE_SIZE := by
    rw [hcount, hps]
    omega
  obtain ⟨f, hf1, hf2⟩ := commit_pages_append stage_w pages 0 N ⟨f_pos, f_mode, []⟩ hpages
    (by rw [Nat.zero_mul]; rfl) hbounds.1 hbounds.2
  have hf3 : f.i_data = d.map byte_inc := by
    rw [hf2, ← hdata, List.map_take]
    rfl
  have hflen : f.i_data.length = N := by rw [hf3, List.length_map, hd]
  refine ⟨f, hf1, hf3, ?_⟩
  have hread := read_pages_flatten stage_r fresh hstage hfresh pages.length 0 f
    (by rw [hflen]; omega)
  rw [Nat.zero_mul, Nat.sub_zero, List.drop_zero, hflen, hf3, List.map_map] at hread
  rw [hread]
  have hid : byte_dec ∘ byte_inc = id := by
    funext b
    exact byte_dec_inc b
  rw [hid, List.map_id]

/-- C3 at the two bytes `0xFF, 0x00` held in one page. -/
theorem C3_write_then_read_roundtrip_witness :
    ∃ lower_file,
      commit_pages (fun _ => []) 0 2
          [[0xFF, 0x00] ++ List.replicate (PAGE_SIZE - 2) 0x33] (some ⟨0, 0, []⟩)
        = some lower_file ∧
      lower_file.i_data = [0x00, 0x01] :=
  let h := C3_write_then_read_roundtrip 2 [0xFF, 0x00]
    [[0xFF, 0x00] ++ List.replicate (PAGE_SIZE - 2) 0x33]
    (fun _ => []) (fun _ => List.replicate PAGE_SIZE 0x77) (fun _ => List.replicate PAGE_SIZE 0x11)
    0 0 (by decide) rfl (by decide)
    (by
      intro p hp
      rw [List.mem_singleton] at hp
      rw [hp, List.length_append, List.length_replicate]
      rfl)
    (by
      rw [List.flatten_cons, List.flatten_nil, List.append_nil]
      rfl)
    (fun _ => List.length_replicate _ _) (fun _ => List.length_replicate _ _)
  h.elim fun f hf => ⟨f, hf.1, hf.2.1⟩

/-! ## file.c: read_iter and write_iter -/

theorem fsstack_copy_attr_all_fields (dest src : Inode) :
    fsstack_copy_attr_all dest src =
      ⟨src.i_mode, src.i_uid, src.i_gid, src.i_rdev, src.i_atime, src.i_mtime, src.i_ctime,
        src.i_blkbits, src.i_flags, src.i_nlink, dest.i_size, dest.i_blocks⟩ := rfl

/-- C12, as amended: `xcfs_unlocked_ioctl` copies attributes from the lower
inode (as the lower ioctl left it) to the upper inode exactly when a lower
file is bound, has an `unlocked_ioctl` entry, and the entry returns 0, and
then returns 0; what is copied is the mode, owner, group, device, the three
times, the block bits, the flags and the link count, while the upper
inode's size and block count stay as they were; when the entry returns `r`
other than 0 it returns `r` with the upper inode as before; when the entry,
the `f_op` table or the lower file is missing it returns `-ENOTTY` with the
upper inode as before and nothing called. -/
theorem C12_ioctl_attribute_copy (lower_file : Option LowerFile) (cmd arg : Nat)
    (inode : Inode) :
    (∀ lf ops entry, lower_file = some lf → lf.f_op = some ops →
      ops.unlocked_ioctl = some entry → (entry cmd arg lf.f_inode).1 = 0 →
      (xcfs_unlocked_ioctl lower_file cmd arg inode).ret = 0 ∧
      (xcfs_unlocked_ioctl lower_file cmd arg inode).inode =
        ⟨(entry cmd arg lf.f_inode).2.i_mode, (entry cmd arg lf.f_inode).2.i_uid,
          (entry cmd arg lf.f_inode).2.i_gid, (entry cmd arg lf.f_inode).2.i_rdev,
          (entry cmd arg lf.f_inode).2.i_atime, (entry cmd arg lf.f_inode).2.i_mtime,
          (entry cmd arg lf.f_inode).2.i_ctime, (entry cmd arg lf.f_inode).2.i_blkbits,
          (entry cmd arg lf.f_inode).2.i_flags, (entry cmd arg lf.f_inode).2.i_nlink,
          inode.i_size, inode.i_blocks⟩ ∧
      (xcfs_unlocked_ioctl lower_file cmd arg inode).lower_inode =
        some (entry cmd arg lf.f_inode).2 ∧
      (xcfs_unlocked_ioctl lower_file cmd arg inode).trace =
        [FileEvent.lower_unlocked_ioctl cmd arg, FileEvent.fsstack_copy_attr_all]) ∧
    (∀ lf ops entry, lower_file = some lf → lf.f_op = some ops →
      ops.unlocked_ioctl = some entry → (entry cmd arg lf.f_inode).1 ≠ 0 →
      (xcfs_unlocked_ioctl lower_file cmd arg inode).ret = (entry cmd arg lf.f_inode).1 ∧
      (xcfs_unlocked_ioctl lower_file cmd arg inode).inode = inode ∧
      (xcfs_unlocked_ioctl lower_file cmd arg inode).trace =
        [FileEvent.lower_unlocked_ioctl cmd arg]) ∧
    (∀ lf ops, lower_file = some lf → lf.f_op = some ops → ops.unlocked_ioctl = none →
      (xcfs_unlocked_ioctl lower_file cmd arg inode).ret = - ENOTTY ∧
      (xcfs_unlocked_ioctl lower_file cmd arg inode).inode = inode ∧
      (xcfs_unlocked_ioctl lower_file cmd arg inode).trace = []) ∧
    (∀ lf, lower_file = some lf → lf.f_op = none →
      (xcfs_unlocked_ioctl lower_file cmd arg inode).ret = - ENOTTY ∧
      (xcfs_unlocked_ioctl lower_file cmd arg inode).inode = inode ∧
      (xcfs_unlocked_ioctl lower_file cmd arg inode).trace = []) ∧
    (lower_file = none →
      (xcfs_unlocked_ioctl lower_file cmd arg inode).ret = - ENOTTY ∧
      (xcfs_unlocked_ioctl lower_file cmd arg inode).inode = inode ∧
      (xcfs_unlocked_ioctl lower_file cmd arg inode).trace = []) ∧
    (FileEvent.fsstack_copy_attr_all ∈ (xcfs_unlocked_ioctl lower_file cmd arg inode).trace ↔
      ∃ lf ops entry, lower_file = some lf ∧ lf.f_op = some ops ∧
        ops.unlocked_ioctl = some entry ∧ (entry cmd arg lf.f_inode).1 = 0) := by
  have hnotty : ¬ (- ENOTTY = 0) := by decide
  have hA : ∀ lf ops entry, lower_file = some lf → lf.f_op = some ops →
      ops.unlocked_ioctl = some entry → (entry cmd arg lf.f_inode).1 = 0 →
      (xcfs_unlocked_ioctl lower_file cmd arg inode).ret = 0 ∧
      (xcfs_unlocked_ioctl lower_file cmd arg inode).inode =
        ⟨(entry cmd arg lf.f_inode).2.i_mode, (entry cmd arg lf.f_inode).2.i_uid,
          (entry cmd arg lf.f_inode).2.i_gid, (entry cmd arg lf.f_inode).2.i_rdev,
          (entry cmd arg lf.f_inode).2.i_atime, (entry cmd arg lf.f_inode).2.i_mtime,
          (entry cmd arg lf.f_inode).2.i_ctime, (entry cmd arg lf.f_inode).2.i_blkbits,
          (entry cmd arg lf.f_inode).2.i_flags, (entry cmd arg lf.f_inode).2.i_nlink,
          inode.i_size, inode.i_blocks⟩ ∧
      (xcfs_unlocked_ioctl lower_file cmd arg inode).lower_inode =
        some (entry cmd arg lf.f_inode).2 ∧
      (xcfs_unlocked_ioctl lower_file cmd arg inode).trace =
        [FileEvent.lower_unlocked_ioctl cmd arg, FileEvent.fsstack_copy_attr_all] := by
    intro lf ops entry h1 h2 h3 h4
    subst h1
    simp only [xcfs_unlocked_ioctl, h2, h3, h4, if_true, List.cons_append, List.nil_append,
      fsstack_copy_attr_all_fields, and_self]
  have hB : ∀ lf ops entry, lower_file = some lf → lf.f_op = some ops →
      ops.unlocked_ioctl = some entry → (entry cmd arg lf.f_inode).1 ≠ 0 →
      (xcfs_unlocked_ioctl lower_file cmd arg inode).ret = (entry cmd arg lf.f_inode).1 ∧
      (xcfs_unlocked_ioctl lower_file cmd arg inode).inode = inode ∧
      (xcfs_unlocked_ioctl lower_file cmd arg inode).trace =
        [FileEvent.lower_unlocked_ioctl cmd arg] := by
    intro lf ops entry h1 h2 h3 h4
    subst h1
    simp only [xcfs_unlocked_ioctl, h2, h3, h4, if_false, and_self]
  have hC : ∀ lf ops, lower_file = some lf → lf.f_op = some ops → ops.unlocked_ioctl = none →
      (xcfs_unlocked_ioctl lower_file cmd arg inode).ret = - ENOTTY ∧
      (xcfs_unlocked_ioctl lower_file cmd arg inode).inode = inode ∧
      (xcfs_unlocked_ioctl lower_file cmd arg inode).trace = [] := by
    intro lf ops h1 h2 h3
    subst h1
    simp only [xcfs_unlocked_ioctl, h2, h3, hnotty, if_false, and_self]
  have hD : ∀ lf, lower_file = some lf → lf.f_op = none →
      (xcfs_unlocked_ioctl lower_file cmd arg inode).ret = - ENOTTY ∧
      (xcfs_unlocked_ioctl lower_file cmd arg inode).inode = inode ∧
      (xcfs_unlocked_ioctl lower_file cmd arg inode).trace = [] := by
    intro lf h1 h2
    subst h1
    simp only [xcfs_unlocked_ioctl, h2, and_self]
  have hE : lower_file = none →
      (xcfs_unlocked_ioctl lower_file cmd arg inode).ret = - ENOTTY ∧
      (xcfs_unlocked_ioctl lower_file cmd arg inode).inode = inode ∧
      (xcfs_unlocked_ioctl lower_file cmd arg inode).trace = [] := by
    intro h1
    subst h1
    simp only [xcfs_unlocked_ioctl, and_self]
  refine ⟨hA, hB, hC, hD, hE, ?_⟩
  cases hlf : lower_file with
  | none =>
    rw [← hlf, (hE hlf).2.2]
    constructor
    · intro h
      exact absurd h (List.not_mem_nil _)
    · rintro ⟨lf, _, _, h, _⟩
      rw [hlf] at h
      cases h
  | some lf =>
    rw [← hlf]
    cases h2 : lf.f_op with
    | none =>
      rw [(hD lf hlf h2).2.2]
      constructor
      · intro h
        exact absurd h (List.not_mem_nil _)
      · rintro ⟨lf2, ops, _, h, hop, _⟩
        rw [hlf] at h
        cases h
        rw [h2] at hop
        cases hop
    | some ops =>
      cases h3 : ops.unlocked_ioctl with
      | none =>
        rw [(hC lf ops hlf h2 h3).2.2]
        constructor
        · intro h
          exact absurd h (List.not_mem_nil _)
        · rintro ⟨lf2, ops2, _, h, hop, hent, _⟩
          rw [hlf] at h
          cases h
          rw [h2] at hop
          cases hop
          rw [h3] at hent
          cases hent
      | some entry =>
        by_cases h4 : (entry cmd arg lf.f_inode).1 = 0
        · rw [(hA lf ops entry hlf h2 h3 h4).2.2.2]
          constructor
          · intro _
            exact ⟨lf, ops, entry, hlf, h2, h3, h4⟩
          · intro _
            exact List.mem_cons_of_mem _ (List.mem_singleton.mpr rfl)
        · rw [(hB lf ops entry hlf h2 h3 h4).2.2]
          constructor
          · intro h
            rw [List.mem_singleton] at h
            cases h
          · rintro ⟨lf2, ops2, entry2, h, hop, hent, hz⟩
            rw [hlf] at h
            cases h
            rw [h2] at hop
            cases hop
            rw [h3] at hent
            cases hent
            exact absurd hz h4

/-- C12 at a lower file whose ioctl entry returns 0 and sets the flags. -/
theorem C12_ioctl_attribute_copy_witness :
    (xcfs_unlocked_ioctl
      (some ⟨1, some ⟨some (fun _ _ i => (0, { i with i_flags := 16 })), none, none⟩,
        ⟨0, 0, 0, 0, 7, 7, 7, 12, 0, 1, 100, 1⟩⟩) 2 0
      ⟨0, 0, 0, 0, 3, 3, 3, 12, 0, 1, 50, 1⟩).ret = 0 :=
  ((C12_ioctl_attribute_copy
    (some ⟨1, some ⟨some (fun _ _ i => (0, { i with i_flags := 16 })), none, none⟩,
      ⟨0, 0, 0, 0, 7, 7, 7, 12, 0, 1, 100, 1⟩⟩) 2 0
    ⟨0, 0, 0, 0, 3, 3, 3, 12, 0, 1, 50, 1⟩).1
    ⟨1, some ⟨some (fun _ _ i => (0, { i with i_flags := 16 })), none, none⟩,
      ⟨0, 0, 0, 0, 7, 7, 7, 12, 0, 1, 100, 1⟩⟩
    ⟨some (fun _ _ i => (0, { i with i_flags := 16 })), none, none⟩
    (fun _ _ i => (0, { i with i_flags := 16 })) rfl rfl rfl rfl).1

/-- C12 as stated fails: with an upper inode of size 50 (1 block) and a
lower file of size 100 (2 blocks) whose ioctl entry returns 0, the upper
inode after `xcfs_unlocked_ioctl` still has size 50 and 1 block, not the
lower inode's 100 and 2, while its access time has become the lower
inode's 7. -/
theorem C12_ioctl_size_counterexample :
    ¬ ((xcfs_unlocked_ioctl
          (some ⟨1, some ⟨some (fun _ _ i => (0, i)), none, none⟩,
            ⟨0, 0, 0, 0, 7, 7, 7, 12, 0, 1, 100, 2⟩⟩) 2 0
          ⟨0, 0, 0, 0, 3, 3, 3, 12, 0, 1, 50, 1⟩).inode =
        ⟨0, 0, 0, 0, 7, 7, 7, 12, 0, 1, 100, 2⟩) ∧
    (xcfs_unlocked_ioctl
        (some ⟨1, some ⟨some (fun _ _ i => (0, i)), none, none⟩,
          ⟨0, 0, 0, 0, 7, 7, 7, 12, 0, 1, 100, 2⟩⟩) 2 0
        ⟨0, 0, 0, 0, 3, 3, 3, 12, 0, 1, 50, 1⟩).inode =
      ⟨0, 0, 0, 0, 7, 7, 7, 12, 0, 1, 50, 1⟩ ∧
    (xcfs_unlocked_ioctl
        (some ⟨1, some ⟨some (fun _ _ i => (0, i)), none, none⟩,
          ⟨0, 0, 0, 0, 7, 7, 7, 12, 0, 1, 100, 2⟩⟩) 2 0
        ⟨0, 0, 0, 0, 3, 3, 3, 12, 0, 1, 50, 1⟩).ret = 0 := by
  refine ⟨by decide, by decide, by decide⟩

/-! ## file.c: open and release -/

theorem xcfs_open_file (lf : LowerFile) (inode lower_inode : Inode) :
    xcfs_open false true (FilePtr.file lf) inode lower_inode =
      ⟨0, some ⟨some lf⟩, false, fsstack_copy_attr_all inode lower_inode,
        [FileEvent.kzalloc, FileEvent.dentry_open_file lf.id, FileEvent.path_put,
          FileEvent.fsstack_copy_attr_all]⟩ := by
  simp only [xcfs_open, Bool.false_eq_true, if_false, Bool.not_true]

theorem xcfs_open_error (e : Int) (inode lower_inode : Inode)
    (hlo : - MAX_ERRNO ≤ e) (hhi : e < 0) :
    xcfs_open false true (FilePtr.error e) inode lower_inode =
      ⟨e, some ⟨none⟩, true, inode,
        [FileEvent.kzalloc, FileEvent.dentry_open_error e, FileEvent.path_put,
          FileEvent.kfree]⟩ := by
  have hmax : MAX_ERRNO = 4095 := rfl
  have hti : to_int e = e := to_int_of_range e (by omega) (by omega)
  have hne : e ≠ 0 := by omega
  simp only [xcfs_open, Bool.false_eq_true, if_false, Bool.not_true, hti, ne_eq, hne,
    not_false_eq_true, if_true, List.cons_append, List.nil_append]

/-- The calls of `n` open and release cycles: as many references taken as
dropped. -/
theorem open_release_cycles_count (inode lower_inode : Inode) (files : List LowerFile) :
    (open_release_cycles inode lower_inode files).countP FileEvent.acquires = files.length ∧
    (open_release_cycles inode lower_inode files).countP FileEvent.releases = files.length := by
  induction files with
  | nil => exact ⟨rfl, rfl⟩
  | cons lf rest ih =>
    unfold open_release_cycles
    rw [xcfs_open_file]
    dsimp only
    simp only [xcfs_file_release, List.countP_append, ih.1, ih.2, List.length_cons]
    constructor
    · simp [FileEvent.acquires]
      omega
    · simp [FileEvent.releases]
      omega

/-- C13: `xcfs_file_release` on a file with private data returns 0, leaves
the private data with no lower file and freed by one `kfree`, and calls
`fput` once, on the lower file, if one was bound and not at all otherwise;
over any sequence of open and release cycles on lower files the number of
references taken by `xcfs_open` equals the number dropped by
`xcfs_file_release`. -/
theorem C13_release_clears_binding (info : xcfs_file_info) (inode lower_inode : Inode)
    (files : List LowerFile) :
    (xcfs_file_release info).ret = 0 ∧
    (xcfs_file_release info).info.lower_file.isNone = true ∧
    (xcfs_file_release info).freed = true ∧
    (xcfs_file_release info).trace.count FileEvent.kfree = 1 ∧
    (∀ lf, info.lower_file = some lf →
      (xcfs_file_release info).trace.filter FileEvent.releases = [FileEvent.fput lf.id]) ∧
    (info.lower_file = none →
      (xcfs_file_release info).trace.filter FileEvent.releases = []) ∧
    (open_release_cycles inode lower_inode files).countP FileEvent.acquires =
      (open_release_cycles inode lower_inode files).countP FileEvent.releases ∧
    (open_release_cycles inode lower_inode files).countP FileEvent.releases = files.length := by
  obtain ⟨hc1, hc2⟩ := open_release_cycles_count inode lower_inode files
  refine ⟨?_, ?_, ?_, ?_, ?_, ?_, by rw [hc1, hc2], hc2⟩
  · unfold xcfs_file_release
    split <;> rfl
  · unfold xcfs_file_release
    split
    · rfl
    · next h => simp [h]
  · unfold xcfs_file_release
    split <;> rfl
  · unfold xcfs_file_release
    split <;> simp
  · intro lf h
    simp [xcfs_file_release, h, FileEvent.releases]
  · intro h
    simp [xcfs_file_release, h, FileEvent.releases]

/-- C13 at a file bound to lower file 4. -/
theorem C13_release_clears_binding_witness :
    (xcfs_file_release ⟨some ⟨4, none, ⟨0, 0, 0, 0, 7, 7, 7, 12, 0, 1, 100, 1⟩⟩⟩).trace.filter
      FileEvent.releases = [FileEvent.fput 4] :=
  (C13_release_clears_binding ⟨some ⟨4, none, ⟨0, 0, 0, 0, 7, 7, 7, 12, 0, 1, 100, 1⟩⟩⟩
    ⟨0, 0, 0, 0, 3, 3, 3, 12, 0, 1, 50, 1⟩ ⟨0, 0, 0, 0, 7, 7, 7, 12, 0, 1, 100, 1⟩
    []).2.2.2.2.1 ⟨4, none, ⟨0, 0, 0, 0, 7, 7, 7, 12, 0, 1, 100, 1⟩⟩ rfl

/-- C14: `xcfs_open` on an unhashed dentry returns `-ENOENT` and does
nothing else (no allocation, no lower open); when the allocation of the
private data fails it returns `-ENOMEM` with no private data; when the lower
open fails with error `e` it returns `e`, the private data holds no lower
file and is freed by one `kfree`, no reference is taken, and the upper inode
is as before; it returns 0 only when the lower open gave a lower file, which
is then bound, with the attributes copied from the lower inode once. -/
theorem C14_open_failure_paths (kzalloc : Bool) (dentry_open : FilePtr)
    (inode lower_inode : Inode) (e : Int) (lf : LowerFile)
    (hlo : - MAX_ERRNO ≤ e) (hhi : e < 0) :
    xcfs_open true kzalloc dentry_open inode lower_inode = ⟨- ENOENT, none, false, inode, []⟩ ∧
    xcfs_open false false dentry_open inode lower_inode =
      ⟨- ENOMEM, none, false, inode, [FileEvent.kzalloc]⟩ ∧
    (xcfs_open false true (FilePtr.error e) inode lower_inode).ret = e ∧
    (xcfs_open false true (FilePtr.error e) inode lower_inode).private_data = some ⟨none⟩ ∧
    (xcfs_open false true (FilePtr.error e) inode lower_inode).freed = true ∧
    (xcfs_open false true (FilePtr.error e) inode lower_inode).inode = inode ∧
    (xcfs_open false true (FilePtr.error e) inode lower_inode).trace.count FileEvent.kfree = 1 ∧
    (xcfs_open false true (FilePtr.error e) inode lower_inode).trace.count
      FileEvent.fsstack_copy_attr_all = 0 ∧
    (xcfs_open false true (FilePtr.error e) inode lower_inode).trace.countP
      FileEvent.acquires = 0 ∧
    (xcfs_open false true (FilePtr.file lf) inode lower_inode).ret = 0 ∧
    (xcfs_open false true (FilePtr.file lf) inode lower_inode).private_data = some ⟨some lf⟩ ∧
    (xcfs_open false true (FilePtr.file lf) inode lower_inode).freed = false ∧
    (xcfs_open false true (FilePtr.file lf) inode lower_inode).inode =
      fsstack_copy_attr_all inode lower_inode ∧
    (xcfs_open false true (FilePtr.file lf) inode lower_inode).trace.count
      FileEvent.fsstack_copy_attr_all = 1 ∧
    (xcfs_open true kzalloc dentry_open inode lower_inode).ret ≠ 0 ∧
    (xcfs_open false false dentry_open inode lower_inode).ret ≠ 0 ∧
    (xcfs_open false true (FilePtr.error e) inode lower_inode).ret ≠ 0 := by
  have h1 : xcfs_open true kzalloc dentry_open inode lower_inode =
      ⟨- ENOENT, none, false, inode, []⟩ := by
    simp only [xcfs_open, if_true]
  have h2 : xcfs_open false false dentry_open inode lower_inode =
      ⟨- ENOMEM, none, false, inode, [FileEvent.kzalloc]⟩ := by
    simp only [xcfs_open, Bool.false_eq_true, if_false, Bool.not_false, if_true]
  rw [h1, h2, xcfs_open_error e inode lower_inode hlo hhi, xcfs_open_file]
  dsimp only
  refine ⟨rfl, rfl, rfl, rfl, rfl, rfl, ?_, ?_, ?_, rfl, rfl, rfl, rfl, ?_, by decide,
    by decide, by omega⟩
  · simp
  · simp
  · simp [FileEvent.acquires]
  · simp

/-- C14 at a lower open that fails with `-13` (`-EACCES`). -/
theorem C14_open_failure_paths_witness :
    (xcfs_open false true (FilePtr.error (-13)) ⟨0, 0, 0, 0, 3, 3, 3, 12, 0, 1, 50, 1⟩
      ⟨0, 0, 0, 0, 7, 7, 7, 12, 0, 1, 100, 1⟩).ret = -13 :=
  (C14_open_failure_paths true (FilePtr.error (-13)) ⟨0, 0, 0, 0, 3, 3, 3, 12, 0, 1, 50, 1⟩
    ⟨0, 0, 0, 0, 7, 7, 7, 12, 0, 1, 100, 1⟩ (-13)
    ⟨4, none, ⟨0, 0, 0, 0, 7, 7, 7, 12, 0, 1, 100, 1⟩⟩ (by decide) (by decide)).2.2.1

/-! ## The lower file's mode across the page operations -/

theorem xcfs_write_end_out_lower_file (stage : List Byte) (err : Int) (page : Page)
    (lower_file : Option File) (trace : List Event) :
    (xcfs_write_end_out (PagePtr.page stage) err page lower_file trace).lower_file
      = lower_file := by
  unfold xcfs_write_end_out
  split_ifs <;> rfl

/-- The lower file `xcfs_write_end` leaves, on a bound file and a staging
page: the one the lower write returns, called on the file with `FMODE_WRITE`
added. -/
theorem xcfs_write_end_lower_file (vfs_write : File → List Byte → Nat → WriteResult)
    (stage : List Byte) (lower_file : File) (pos copied : Nat) (page : Page) :
    ∃ buf count,
      (xcfs_write_end vfs_write (PagePtr.page stage) (some lower_file) pos copied
          page).lower_file =
        some (vfs_write ⟨page_offset page + ((to_unsigned (pos &&& (PAGE_SIZE - 1)) : Nat) : Int),
          lower_file.f_mode ||| FMODE_WRITE, lower_file.i_data⟩ buf count).file := by
  refine ⟨(xcfs_encrypt (memcpy stage page.data PAGE_SIZE) PAGE_SIZE).drop
      (to_unsigned (pos &&& (PAGE_SIZE - 1))),
    to_unsigned (to_unsigned (to_unsigned (pos &&& (PAGE_SIZE - 1)) + copied) + 2 ^ 32 -
      to_unsigned (pos &&& (PAGE_SIZE - 1))), ?_⟩
  have key : ∃ err trace,
      xcfs_write_end vfs_write (PagePtr.page stage) (some lower_file) pos copied page =
        xcfs_write_end_out (PagePtr.page stage) err page
          (some (vfs_write ⟨page_offset page +
              ((to_unsigned (pos &&& (PAGE_SIZE - 1)) : Nat) : Int),
            lower_file.f_mode ||| FMODE_WRITE, lower_file.i_data⟩
            ((xcfs_encrypt (memcpy stage page.data PAGE_SIZE) PAGE_SIZE).drop
              (to_unsigned (pos &&& (PAGE_SIZE - 1))))
            (to_unsigned (to_unsigned (to_unsigned (pos &&& (PAGE_SIZE - 1)) + copied) +
              2 ^ 32 - to_unsigned (pos &&& (PAGE_SIZE - 1))))).file) trace := by
    simp only [xcfs_write_end, PagePtr.valid, PagePtr.contents, Bool.not_true,
      Bool.false_eq_true, if_false]
    split_ifs
    · exact ⟨_, _, rfl⟩
    · exact ⟨_, _, rfl⟩
  obtain ⟨err, trace, hkey⟩ := key
  rw [hkey, xcfs_write_end_out_lower_file]

/-- C15: a call of `xcfs_write_end` that reaches the lower write (bound
lower file, staging page) returns with the lower file's `f_mode` equal to
its value before the call with `FMODE_WRITE` added, whatever the write
returned, the lower write itself leaving `f_mode` alone; `xcfs_readpage`
returns with the lower file's `f_mode` equal to its value before the call,
the read having been issued with `FMODE_READ` added (on a byte-array lower
file, which refuses a read without `FMODE_READ`, the call returns 0). -/
theorem C15_lower_file_mode (vfs_write : File → List Byte → Nat → WriteResult)
    (vfs_read : File → Nat → ReadResult) (stage : List Byte) (lower_file : File)
    (pos copied : Nat) (page : Page)
    (hframe : ∀ f buf count, (vfs_write f buf count).file.f_mode = f.f_mode) :
    (∃ f, (xcfs_write_end vfs_write (PagePtr.page stage) (some lower_file) pos copied
        page).lower_file = some f ∧ f.f_mode = lower_file.f_mode ||| FMODE_WRITE) ∧
    (xcfs_readpage vfs_read (PagePtr.page stage) lower_file page).lower_file.f_mode =
      lower_file.f_mode ∧
    (xcfs_readpage array_vfs_read (PagePtr.page stage) lower_file page).ret = some 0 ∧
    (xcfs_readpage array_vfs_read (PagePtr.page stage) lower_file page).lower_file.f_mode =
      lower_file.f_mode := by
  have hread_mode : ∀ vr : File → Nat → ReadResult,
      (xcfs_readpage vr (PagePtr.page stage) lower_file page).lower_file.f_mode =
        lower_file.f_mode := by
    intro vr
    generalize hr : vr ⟨page_offset page, lower_file.f_mode ||| FMODE_READ, lower_file.i_data⟩
      PAGE_SIZE = r
    obtain ⟨ret, buf, file_after⟩ := r
    by_cases hret : to_int ret < 0
    · rw [xcfs_readpage_err vr stage lower_file page ret buf file_after hr hret]
    · rw [xcfs_readpage_ok vr stage lower_file page ret buf file_after hr hret]
  refine ⟨?_, hread_mode vfs_read, ?_, hread_mode array_vfs_read⟩
  · obtain ⟨buf, count, h⟩ := xcfs_write_end_lower_file vfs_write stage lower_file pos copied page
    exact ⟨_, h, hframe _ _ _⟩
  · have hps := PAGE_SIZE_eq
    have hK : ((lower_file.i_data.drop (page_offset page).toNat).take PAGE_SIZE).length
        ≤ PAGE_SIZE := by
      rw [List.length_take]
      omega
    have hread : array_vfs_read ⟨page_offset page, lower_file.f_mode ||| FMODE_READ,
        lower_file.i_data⟩ PAGE_SIZE =
        ⟨(((lower_file.i_data.drop (page_offset page).toNat).take PAGE_SIZE).length : Nat),
          (lower_file.i_data.drop (page_offset page).toNat).take PAGE_SIZE,
          ⟨page_offset page +
            (((lower_file.i_data.drop (page_offset page).toNat).take PAGE_SIZE).length : Nat),
            lower_file.f_mode ||| FMODE_READ, lower_file.i_data⟩⟩ := by
      simp only [array_vfs_read, fmode_read_set, if_false]
    have hti : to_int ((((lower_file.i_data.drop (page_offset page).toNat).take
        PAGE_SIZE).length : Nat) : Int) =
        (((lower_file.i_data.drop (page_offset page).toNat).take PAGE_SIZE).length : Nat) :=
      to_int_of_range _ (by omega) (by omega)
    rw [xcfs_readpage_ok array_vfs_read stage lower_file page _ _ _ hread
      (by rw [hti]; omega)]

/-- C15 at a lower file opened with mode 0 and a byte-array lower write. -/
theorem C15_lower_file_mode_witness :
    (xcfs_readpage array_vfs_read (PagePtr.page [0, 0]) ⟨0, 0, [1, 2]⟩
      ⟨0, [9, 9], false, false, true⟩).lower_file.f_mode = 0 :=
  (C15_lower_file_mode array_vfs_write array_vfs_read [0, 0] ⟨0, 0, [1, 2]⟩ 0 2
    ⟨0, [9, 9], false, false, true⟩
    (by
      intro f buf count
      unfold array_vfs_write
      split_ifs <;> rfl)).2.1
end Xcfs
